import Mathlib

/-!
Shallow embedding of the mom execution-orchestration core:
plan construction, the DAG step runner with budget enforcement, the
per-channel confirmation state machine, and the file-queue bridge client.
Definitions are translated from the TypeScript sources
(`orchestrator-service`, `execution-runner-service`, `pi-bridge-client`,
`execution-gateway-service`, `conversation-agent-service`,
`mom-run-service`).
-/

set_option maxRecDepth 100000

deriving instance DecidableEq for Except

namespace Mom

/-- `type RiskLevel = "low" | "medium" | "high"` from `conversation-types`. -/
inductive RiskLevel where
  | low
  | medium
  | high
deriving DecidableEq, Repr

/-- String form of a risk level, as interpolated into prompts
(`${taskCard.riskLevel}`). -/
def RiskLevel.toStr : RiskLevel → String
  | .low => "low"
  | .medium => "medium"
  | .high => "high"

/-- `intentType: "execute" | "question" | "status" | "chat"` from
`conversation-types` (the four values produced by `buildIntent`). -/
inductive IntentType where
  | execute
  | question
  | status
  | chat
deriving DecidableEq, Repr

/-- `UserMessageIntent` from `conversation-types`. -/
structure UserMessageIntent where
  intentType : IntentType
  goal : String
  constraints : List String
  clarificationsNeeded : List String
  toneProfileId : String
deriving DecidableEq, Repr

/-- `budget` field of `ExecutionTaskCard`. -/
structure TaskBudget where
  tokenBudget : Nat
  timeoutMs : Nat
deriving DecidableEq, Repr

/-- `ExecutionTaskCard` from `conversation-types`. -/
structure ExecutionTaskCard where
  objective : String
  inputs : List String
  doneCriteria : List String
  riskLevel : RiskLevel
  budget : TaskBudget
deriving DecidableEq, Repr

/-- `ConversationProfile` from `conversation-types`; `interactionPolicy`
is a free-form string compared against `"confirm_before_execute"`. -/
structure ConversationProfile where
  id : String
  tone : String
  verbosity : String
  interactionPolicy : String
  lexicon : List (String × String)
deriving DecidableEq, Repr

/-- JavaScript `String.prototype.toLowerCase()` restricted to the
alphabet actually used by the goal keyword checks (ASCII letters and
CJK text, on which the two functions agree). -/
def toLowerStr (s : String) : String :=
  String.mk (s.data.map Char.toLower)

/-- Does `haystack` start with `needle`? -/
def startsWithList (haystack needle : List Char) : Bool :=
  match needle, haystack with
  | [], _ => true
  | _ :: _, [] => false
  | n :: ns, h :: hs => n == h && startsWithList hs ns

/-- Does `needle` occur as a contiguous run inside `haystack`? -/
def infixOfList (needle : List Char) : List Char → Bool
  | [] => needle.isEmpty
  | h :: hs => startsWithList (h :: hs) needle || infixOfList needle hs

/-- JavaScript `haystack.includes(needle)` for strings. -/
def strIncludes (haystack needle : String) : Bool :=
  infixOfList needle.data haystack.data

/-- JavaScript `s.slice(0, n)`: the first `n` characters of `s`. -/
def strTake (s : String) (n : Nat) : String :=
  String.mk (s.data.take n)

/-- `DANGEROUS_KEYWORDS` from `conversation-agent-service.ts`. -/
def DANGEROUS_KEYWORDS : List String :=
  ["删除", "重置", "覆盖", "清空", "drop", "reset", "rm"]

/-- `FileConversationAgent.requiresExecutionConfirmation` from
`conversation-agent-service.ts` lines 271-287. -/
def requiresExecutionConfirmation (intent : UserMessageIntent)
    (taskCard : ExecutionTaskCard) (profile : ConversationProfile) : Bool :=
  if intent.intentType ≠ IntentType.execute then
    false
  else if profile.interactionPolicy = "confirm_before_execute" then
    true
  else if taskCard.riskLevel = RiskLevel.high then
    true
  else
    DANGEROUS_KEYWORDS.any (fun keyword => strIncludes (toLowerStr intent.goal) keyword)

/-- `HIGH_RISK_PATTERNS` from `execution-gateway-service.ts`. -/
def HIGH_RISK_PATTERNS : List String :=
  ["删除", "重置", "覆盖", "清空", "drop", "reset", "rm ", "git reset", "kill-session", "kill ", "force"]

/-- `LOW_RISK_PATTERNS` from `execution-gateway-service.ts`. -/
def LOW_RISK_PATTERNS : List String :=
  ["查看", "查询", "状态", "日志", "explain", "review", "list"]

/-- `inferRiskLevel` from `execution-gateway-service.ts` lines 133-149. -/
def inferRiskLevel (intent : UserMessageIntent) : RiskLevel :=
  if intent.intentType = IntentType.status ∨ intent.intentType = IntentType.question then
    RiskLevel.low
  else
    let loweredGoal := toLowerStr intent.goal
    if HIGH_RISK_PATTERNS.any (fun pattern => strIncludes loweredGoal pattern) then
      RiskLevel.high
    else if LOW_RISK_PATTERNS.any (fun pattern => strIncludes loweredGoal pattern) then
      RiskLevel.low
    else if intent.constraints.contains "respect_negative_constraints" then
      RiskLevel.medium
    else
      RiskLevel.medium

/-- `DefaultExecutionGateway.createTaskCard` from
`execution-gateway-service.ts` lines 152-168. -/
def createTaskCard (intent : UserMessageIntent) : ExecutionTaskCard :=
  let riskLevel := inferRiskLevel intent
  let doneCriteriaBase := ["给出明确结论或可执行结果", "失败时给出原因和下一步建议"]
  let doneCriteria :=
    if riskLevel = RiskLevel.high then doneCriteriaBase ++ ["输出关键风险和回滚建议"] else doneCriteriaBase
  { objective := intent.goal
    inputs := intent.goal :: intent.constraints
    doneCriteria := doneCriteria
    riskLevel := riskLevel
    budget :=
      { tokenBudget := if riskLevel = RiskLevel.low then 12000 else if riskLevel = RiskLevel.high then 20000 else 30000
        timeoutMs := if riskLevel = RiskLevel.low then 180000 else 600000 } }

/-- `ExecutionPlanStep` from `orchestrator-service.ts`; `worker` is one of
`planner|coder|reviewer|tester|docs|synthesizer`. -/
structure ExecutionPlanStep where
  id : String
  worker : String
  summary : String
  dependsOn : List String
  parallelGroup : Option String
deriving DecidableEq, Repr

/-- `ExecutionPlan` from `orchestrator-service.ts`. -/
structure ExecutionPlan where
  runId : String
  steps : List ExecutionPlanStep
deriving DecidableEq, Repr

/-- `DefaultOrchestrator.buildPlan` from `orchestrator-service.ts`
lines 350-388. `randomUUID()` is modelled by an id supply `fresh`;
`fresh n` is the value of the n-th `randomUUID()` call (the run id is
drawn first, then one id per created step, in program order). -/
def buildPlan (fresh : Nat → String) (intent : UserMessageIntent)
    (taskCard : ExecutionTaskCard) : ExecutionPlan :=
  let runId := fresh 0
  let planner : ExecutionPlanStep := ⟨fresh 1, "planner", "拆解目标与约束", [], none⟩
  if intent.intentType = IntentType.execute then
    let coder : ExecutionPlanStep := ⟨fresh 2, "coder", "执行代码/命令修改", [planner.id], none⟩
    let reviewer : ExecutionPlanStep := ⟨fresh 3, "reviewer", "审查风险与回归", [coder.id], some "verify"⟩
    let tester : ExecutionPlanStep := ⟨fresh 4, "tester", "执行验证与检查", [coder.id], some "verify"⟩
    let docs : ExecutionPlanStep := ⟨fresh 5, "docs", "生成变更说明", [reviewer.id, tester.id], none⟩
    let synth : ExecutionPlanStep := ⟨fresh 6, "synthesizer", "汇总执行结果", [docs.id], none⟩
    ⟨runId, [planner, coder, reviewer, tester, docs, synth]⟩
  else
    let synth : ExecutionPlanStep := ⟨fresh 2, "synthesizer", "整理" ++ taskCard.objective ++ "的答复", [planner.id], none⟩
    ⟨runId, [planner, synth]⟩

/-- A step list is topologically sorted when every step's dependencies
are ids of strictly earlier steps in the list. -/
def topoSortedFrom (seen : List String) : List ExecutionPlanStep → Bool
  | [] => true
  | s :: rest => s.dependsOn.all (fun d => seen.contains d) && topoSortedFrom (seen ++ [s.id]) rest

/-- A step list in topological order: each step only depends on earlier steps. -/
def topoSorted (steps : List ExecutionPlanStep) : Bool :=
  topoSortedFrom [] steps

/-- A step list is acyclic when some permutation of it is topologically
sorted. -/
def AcyclicSteps (steps : List ExecutionPlanStep) : Prop :=
  ∃ order : List ExecutionPlanStep, order.Perm steps ∧ topoSorted order = true

/-- `StepExecutionResult` from `execution-runner-service.ts`. -/
structure StepExecutionResult where
  stepId : String
  worker : String
  text : String
  inputTokens : Nat
  outputTokens : Nat
deriving DecidableEq, Repr

/-- `PlanExecutionResult` from `execution-runner-service.ts`. -/
structure PlanExecutionResult where
  finalText : String
  stepResults : List StepExecutionResult
  totalInputTokens : Nat
  totalOutputTokens : Nat
deriving DecidableEq, Repr

/-- `estimateTokens` from `execution-runner-service.ts` lines 30-32:
`Math.max(1, Math.ceil(text.length / 4))`. -/
def estimateTokens (text : String) : Nat :=
  max 1 ((text.length + 3) / 4)

/-- `buildStepPrompt` from `execution-runner-service.ts` lines 34-58. -/
def buildStepPrompt (baseText : String) (step : ExecutionPlanStep)
    (taskCard : ExecutionTaskCard) (priorResults : List StepExecutionResult) : String :=
  let priorLines := (priorResults.drop (priorResults.length - 4)).map
    (fun result => "- [" ++ result.worker ++ "] " ++ strTake result.text 800)
  let prior := String.intercalate "\n" priorLines
  String.intercalate "\n"
    [ "[EXECUTION_STEP:" ++ step.id ++ "]"
    , "Worker: " ++ step.worker
    , "Summary: " ++ step.summary
    , "Objective: " ++ taskCard.objective
    , "Risk: " ++ taskCard.riskLevel.toStr
    , "Done Criteria: " ++ String.intercalate " | " taskCard.doneCriteria
    , "Base Request:"
    , baseText
    , "Recent Step Outputs:"
    , if prior = "" then "- (none)" else prior
    , "Return concise structured output with result and risks." ]

/-- `selectReadySteps` from `execution-runner-service.ts` lines 60-72:
the remaining steps whose dependencies are all completed (iteration
order of a JS `Map` is insertion order, modelled by the list order). -/
def selectReadySteps (completed : List String)
    (remaining : List ExecutionPlanStep) : List ExecutionPlanStep :=
  remaining.filter (fun step => step.dependsOn.all (fun d => completed.contains d))

/-- The grouping key of `groupByParallelKey`:
`step.parallelGroup || step.id` (an empty string is falsy). -/
def parallelKey (step : ExecutionPlanStep) : String :=
  match step.parallelGroup with
  | some g => if g = "" then step.id else g
  | none => step.id

/-- Appending a step to the group of its key, keeping the first-insertion
order of keys (JS `Map` semantics). -/
def insertByKey (key : String) (step : ExecutionPlanStep) :
    List (String × List ExecutionPlanStep) → List (String × List ExecutionPlanStep)
  | [] => [(key, [step])]
  | (k, l) :: rest =>
    if k = key then (k, l ++ [step]) :: rest else (k, l) :: insertByKey key step rest

/-- `groupByParallelKey` from `execution-runner-service.ts` lines 74-83. -/
def groupByParallelKey (steps : List ExecutionPlanStep) : List (List ExecutionPlanStep) :=
  (steps.foldl (fun groups step => insertByKey (parallelKey step) step groups) []).map (·.2)

/-- `map.set(step.id, step)`: overwrite in place when the id is present,
append otherwise. -/
def mapInsert (acc : List ExecutionPlanStep) (step : ExecutionPlanStep) :
    List ExecutionPlanStep :=
  if acc.any (fun t => t.id = step.id) then
    acc.map (fun t => if t.id = step.id then step else t)
  else
    acc ++ [step]

/-- `new Map(steps.map(s => [s.id, s]))`: entry per id in first-insertion
order, a later entry with the same id overwrites the value in place. -/
def mapFromSteps (steps : List ExecutionPlanStep) : List ExecutionPlanStep :=
  steps.foldl mapInsert []

/-- The errors `DefaultExecutionRunner.executePlan` can throw
(`plan is stuck`, `token budget exceeded before step`, `token budget
exceeded after step`) plus a propagated bridge-client failure. -/
inductive ExecError where
  | planStuck
  | budgetBefore (worker : String)
  | budgetAfter (worker : String)
  | bridge (msg : String)
deriving DecidableEq, Repr

/-- A record of one bridge request issued for a step: the step, and the
contents of `completed` at dispatch time. -/
structure DispatchEvent where
  stepId : String
  dependsOn : List String
  completedAtDispatch : List String
deriving DecidableEq, Repr

/-- A dispatch is safe when every declared dependency of its step was
already in `completed` at the moment the bridge request was issued. -/
def SafeEvent (e : DispatchEvent) : Prop :=
  ∀ d ∈ e.dependsOn, d ∈ e.completedAtDispatch

/-- The body of `group.map(async (step) => ...)` in
`DefaultExecutionRunner.executePlan` lines 124-156: render the prompt,
check the budget before the call, issue the bridge request, check the
budget after the response. `bridge` maps the request text to the worker
response text (or a thrown error's message). The returned list holds
the bridge request issued by this step, if any. -/
def runStep (bridge : String → Except String String) (baseText : String)
    (taskCard : ExecutionTaskCard) (results : List StepExecutionResult)
    (totalInputTokens totalOutputTokens : Nat) (completed : List String)
    (step : ExecutionPlanStep) :
    List DispatchEvent × Except ExecError StepExecutionResult :=
  let stepPrompt := buildStepPrompt baseText step taskCard results
  let stepInputTokens := estimateTokens stepPrompt
  let projectedInput := totalInputTokens + stepInputTokens
  if projectedInput > taskCard.budget.tokenBudget then
    ([], Except.error (ExecError.budgetBefore step.worker))
  else
    let event : DispatchEvent := ⟨step.id, step.dependsOn, completed⟩
    match bridge stepPrompt with
    | Except.error msg => ([event], Except.error (ExecError.bridge msg))
    | Except.ok text =>
      let outputTokens := estimateTokens text
      if projectedInput + totalOutputTokens + outputTokens > taskCard.budget.tokenBudget then
        ([event], Except.error (ExecError.budgetAfter step.worker))
      else
        ([event], Except.ok ⟨step.id, step.worker, text, stepInputTokens, outputTokens⟩)

/-- First error of a list of step outcomes, or all results
(`Promise.all` over a group: every promise runs, the first rejection
becomes the group's rejection). -/
def collectResults : List (Except ExecError StepExecutionResult) →
    Except ExecError (List StepExecutionResult)
  | [] => Except.ok []
  | x :: rest =>
    match x with
    | Except.error e => Except.error e
    | Except.ok r =>
      match collectResults rest with
      | Except.error e => Except.error e
      | Except.ok rs => Except.ok (r :: rs)

/-- `await Promise.all(group.map(...))`: every step of the group runs
against the same snapshot of `results`, the token totals and
`completed`; all issued bridge requests are recorded even when a
sibling fails. -/
def runGroup (bridge : String → Except String String) (baseText : String)
    (taskCard : ExecutionTaskCard) (results : List StepExecutionResult)
    (totalInputTokens totalOutputTokens : Nat) (completed : List String)
    (group : List ExecutionPlanStep) :
    List DispatchEvent × Except ExecError (List StepExecutionResult) :=
  let runs := group.map (runStep bridge baseText taskCard results totalInputTokens totalOutputTokens completed)
  ((runs.map (·.1)).flatten, collectResults (runs.map (·.2)))

/-- Sum of the `inputTokens` of a list of step results. -/
def sumInputTokens (results : List StepExecutionResult) : Nat :=
  results.foldl (fun acc r => acc + r.inputTokens) 0

/-- Sum of the `outputTokens` of a list of step results. -/
def sumOutputTokens (results : List StepExecutionResult) : Nat :=
  results.foldl (fun acc r => acc + r.outputTokens) 0

/-- `for (const group of groups) { ... }` in `executePlan` lines
122-166: groups of one wave run in order; after each group its results
are appended, the token totals accumulated and the steps marked
completed. Returns the issued bridge requests and either the first
error or the updated `(results, totalInput, totalOutput, completed)`. -/
def runGroups (bridge : String → Except String String) (baseText : String)
    (taskCard : ExecutionTaskCard) :
    List (List ExecutionPlanStep) → List StepExecutionResult → Nat → Nat → List String →
    List DispatchEvent × Except ExecError (List StepExecutionResult × Nat × Nat × List String)
  | [], results, totalIn, totalOut, completed =>
    ([], Except.ok (results, totalIn, totalOut, completed))
  | group :: rest, results, totalIn, totalOut, completed =>
    let (log, outcome) := runGroup bridge baseText taskCard results totalIn totalOut completed group
    match outcome with
    | Except.error e => (log, Except.error e)
    | Except.ok groupResults =>
      let (log2, outcome2) := runGroups bridge baseText taskCard rest
        (results ++ groupResults)
        (totalIn + sumInputTokens groupResults)
        (totalOut + sumOutputTokens groupResults)
        (completed ++ groupResults.map (·.stepId))
      (log ++ log2, outcome2)

/-- `while (remaining.size > 0) { ... }` in `executePlan` lines 115-167:
compute the ready wave, fail with `planStuck` when it is empty, run its
groups, drop the completed steps from `remaining` and continue. The
loop is bounded by a fuel argument; every iteration of the source loop
either returns, throws, or strictly shrinks `remaining`, so
`executePlan` supplies `remaining.length` as fuel and the exhausted-fuel
branch (which repeats the stuck error) is unreachable. -/
def execLoop (bridge : String → Except String String) (baseText : String)
    (taskCard : ExecutionTaskCard) :
    Nat → List ExecutionPlanStep → List String → List StepExecutionResult → Nat → Nat →
    List DispatchEvent × Except ExecError (List StepExecutionResult × Nat × Nat)
  | fuel, remaining, completed, results, totalIn, totalOut =>
    if remaining.isEmpty then
      ([], Except.ok (results, totalIn, totalOut))
    else
      let ready := selectReadySteps completed remaining
      if ready.isEmpty then
        ([], Except.error ExecError.planStuck)
      else
        match fuel with
        | 0 => ([], Except.error ExecError.planStuck)
        | fuel + 1 =>
          let groups := groupByParallelKey ready
          let (log, outcome) := runGroups bridge baseText taskCard groups results totalIn totalOut completed
          match outcome with
          | Except.error e => (log, Except.error e)
          | Except.ok (results', totalIn', totalOut', completed') =>
            let readyIds := ready.map (·.id)
            let remaining' := remaining.filter (fun s => !(readyIds.contains s.id))
            let (log2, outcome2) :=
              execLoop bridge baseText taskCard fuel remaining' completed' results' totalIn' totalOut'
            (log ++ log2, outcome2)

/-- `DefaultExecutionRunner.executePlan` from `execution-runner-service.ts`
lines 88-177, with the bridge client abstracted as a map from request
text to the worker's response. Returns the list of issued bridge
requests alongside the result. -/
def executePlan (bridge : String → Except String String) (baseText : String)
    (plan : ExecutionPlan) (taskCard : ExecutionTaskCard) :
    List DispatchEvent × Except ExecError PlanExecutionResult :=
  let effectiveSteps :=
    if plan.steps.length > 0 then plan.steps
    else [⟨plan.runId ++ "-synth", "synthesizer", "fallback synthesis", [], none⟩]
  let remaining := mapFromSteps effectiveSteps
  let (log, outcome) := execLoop bridge baseText taskCard remaining.length remaining [] [] 0 0
  match outcome with
  | Except.error e => (log, Except.error e)
  | Except.ok (results, totalIn, totalOut) =>
    let finalStep :=
      match results.reverse.find? (fun r => r.worker = "synthesizer") with
      | some r => some r
      | none => results.getLast?
    (log, Except.ok
      { finalText := match finalStep with | some r => r.text | none => ""
        stepResults := results
        totalInputTokens := totalIn
        totalOutputTokens := totalOut })

/-- `PiBridgeRequest` from `pi-bridge-client.ts` together with the extra
fields `DefaultExecutionGateway.createBridgeRequest` attaches
(`runId`, carried intent/task card/plan). -/
structure PiBridgeRequestRecord where
  channelId : String
  threadTs : Option String
  userId : String
  userName : Option String
  text : String
  attachments : List String
  isEvent : Bool
  ts : String
  runId : Option String
deriving DecidableEq, Repr

/-- `PendingExecutionApproval` from `mom-run-service.ts` lines 24-32. -/
structure PendingExecutionApproval where
  intent : UserMessageIntent
  profile : ConversationProfile
  taskCard : ExecutionTaskCard
  bridgeRequest : PiBridgeRequestRecord
  confirmationToken : String
  createdAtMs : Nat
  lastReminderAtMs : Option Nat
deriving DecidableEq, Repr

/-- `ConfirmationDecision` from `conversation-agent-service.ts`: the
parse of an incoming message while an approval is pending. -/
inductive ConfirmationDecision where
  | confirm (token : Option String)
  | cancel (token : Option String)
  | unknown
deriving DecidableEq, Repr

/-- `EXECUTION_CONFIRMATION_TTL_MS` from `mom-run-service.ts`. -/
def EXECUTION_CONFIRMATION_TTL_MS : Nat := 10 * 60 * 1000

/-- `CONFIRMATION_REMINDER_DEBOUNCE_MS` from `mom-run-service.ts`. -/
def CONFIRMATION_REMINDER_DEBOUNCE_MS : Nat := 3000

/-- What the pending-approval segment of `handleEvent` does with the
incoming message. -/
inductive ApprovalOutcome where
  | expired
  | cancelMismatch
  | cancelled
  | reminderSent
  | reminderSuppressed
  | confirmMismatch
  | execute (intent : UserMessageIntent) (taskCard : ExecutionTaskCard)
      (bridgeRequest : PiBridgeRequestRecord) (profile : ConversationProfile)
      (runId : String)
deriving DecidableEq, Repr

/-- The pending-approval segment of `MomRunService.handleEvent`
(`mom-run-service.ts` lines 150-215), given the stored approval, the
parsed confirmation decision of the incoming text, and the current
clock. Returns the outcome and the channel's new pending approval.
JS `now - createdAt > TTL` is written `createdAt + TTL < now` (both
clocks are non-negative); in the cancel branch an empty token string is
falsy and therefore ignored, exactly as `confirmation.token && ...`; a
stored `lastReminderAtMs` of `0` is falsy, hence the `last = 0`
disjunct in the debounce test. -/
def handlePendingApproval (approval : PendingExecutionApproval)
    (decision : ConfirmationDecision) (nowMs : Nat) :
    ApprovalOutcome × Option PendingExecutionApproval :=
  if approval.createdAtMs + EXECUTION_CONFIRMATION_TTL_MS < nowMs then
    (ApprovalOutcome.expired, none)
  else
    match decision with
    | ConfirmationDecision.cancel token =>
      match token with
      | some t =>
        if t ≠ "" ∧ t ≠ approval.confirmationToken then
          (ApprovalOutcome.cancelMismatch, some approval)
        else
          (ApprovalOutcome.cancelled, none)
      | none => (ApprovalOutcome.cancelled, none)
    | ConfirmationDecision.unknown =>
      match approval.lastReminderAtMs with
      | none =>
        (ApprovalOutcome.reminderSent, some { approval with lastReminderAtMs := some nowMs })
      | some last =>
        if last = 0 ∨ last + CONFIRMATION_REMINDER_DEBOUNCE_MS ≤ nowMs then
          (ApprovalOutcome.reminderSent, some { approval with lastReminderAtMs := some nowMs })
        else
          (ApprovalOutcome.reminderSuppressed, some approval)
    | ConfirmationDecision.confirm token =>
      if token ≠ some approval.confirmationToken then
        (ApprovalOutcome.confirmMismatch, some approval)
      else
        (ApprovalOutcome.execute approval.intent approval.taskCard approval.bridgeRequest
          approval.profile (approval.bridgeRequest.runId.getD ""), none)

/-- Did a computation succeed? -/
def exceptIsOk {ε α : Type} : Except ε α → Bool
  | Except.ok _ => true
  | Except.error _ => false

/-- `RESPONSE_POLL_INTERVAL_MS` from `pi-bridge-client.ts`. -/
def RESPONSE_POLL_INTERVAL_MS : Nat := 150

/-- `DEFAULT_REQUEST_TIMEOUT_MS` from `pi-bridge-client.ts`. -/
def DEFAULT_REQUEST_TIMEOUT_MS : Nat := 600000

/-- `PiBridgeStatus` from `pi-bridge-client.ts` (the optional `details`
map is not read by any modelled code path and is omitted). -/
structure PiBridgeStatusRecord where
  id : String
  phase : String
  text : String
  updatedAt : String
deriving DecidableEq, Repr

/-- `PiBridgeQueuedResponse` from `pi-bridge-client.ts`. -/
structure PiBridgeQueuedResponse where
  id : String
  ok : Bool
  text : Option String
  error : Option String
deriving DecidableEq, Repr

/-- `PiBridgeQueuedRequest`: the request record written to
`requests/<id>.json` (`{id, createdAt, ...request}`). -/
structure PiBridgeQueuedRequest where
  id : String
  createdAt : String
  request : PiBridgeRequestRecord
deriving DecidableEq, Repr

/-- `PiBridgeResponse` from `pi-bridge-client.ts`. -/
structure PiBridgeResponse where
  text : String
deriving DecidableEq, Repr

/-- The failures `FileQueuePiBridgeClient.request` can raise: poll
timeout, the abort error, or a worker response with `ok=false`. -/
inductive BridgeError where
  | timeout
  | aborted
  | workerReported (msg : String)
deriving DecidableEq, Repr

/-- What the file queue looks like to one polling iteration: whether the
abort signal fired, and the parsed contents of the status and response
artifacts for the request's id (absent file or unparsable record ↦
`none`). The external worker owns these writes. -/
structure EnvView where
  aborted : Bool
  statusFile : Option PiBridgeStatusRecord
  responseFile : Option PiBridgeQueuedResponse
deriving DecidableEq, Repr

/-- Number of polling iterations of `waitForResponse`: the loop runs
while `elapsed < timeoutMs` and each iteration sleeps 150 ms. -/
def numPollTicks (timeoutMs : Nat) : Nat :=
  (timeoutMs + (RESPONSE_POLL_INTERVAL_MS - 1)) / RESPONSE_POLL_INTERVAL_MS

/-- The status signature used to deduplicate `onStatus` invocations:
`${phase}:${updatedAt}:${text}`. -/
def statusSignature (status : PiBridgeStatusRecord) : String :=
  status.phase ++ ":" ++ status.updatedAt ++ ":" ++ status.text

/-- One pass of the `waitForResponse` polling loop
(`pi-bridge-client.ts` lines 145-180), driven by the environment `env`
indexed by tick (tick `t` is the iteration at elapsed `150·t` ms):
check the abort signal, surface a changed status artifact to the
handler, return a present response artifact, else sleep and repeat.
Returns the outcome, the exit tick, and the statuses handed to
`onStatus`. -/
def waitPoll (env : Nat → EnvView) (onStatusProvided : Bool) :
    Nat → Nat → String → List PiBridgeStatusRecord →
    (Except BridgeError PiBridgeQueuedResponse × Nat × List PiBridgeStatusRecord)
  | 0, t, _, emitted => (Except.error BridgeError.timeout, t, emitted)
  | fuel + 1, t, lastSignature, emitted =>
    if (env t).aborted then
      (Except.error BridgeError.aborted, t, emitted)
    else
      let (lastSignature', emitted') :=
        if onStatusProvided then
          match (env t).statusFile with
          | some status =>
            let signature := statusSignature status
            if signature ≠ lastSignature then (signature, emitted ++ [status])
            else (lastSignature, emitted)
          | none => (lastSignature, emitted)
        else (lastSignature, emitted)
      match (env t).responseFile with
      | some response => (Except.ok response, t, emitted')
      | none => waitPoll env onStatusProvided fuel (t + 1) lastSignature' emitted'

/-- `waitForResponse` from `pi-bridge-client.ts` lines 145-180. -/
def waitForResponse (env : Nat → EnvView) (onStatusProvided : Bool) (timeoutMs : Nat) :
    Except BridgeError PiBridgeQueuedResponse × Nat × List PiBridgeStatusRecord :=
  waitPoll env onStatusProvided (numPollTicks timeoutMs) 0 "" []

/-- The artifacts for one request id (`requests/<id>.json`,
`responses/<id>.json`, `status/<id>.json`). -/
structure ArtifactState where
  request : Option PiBridgeQueuedRequest
  response : Option PiBridgeQueuedResponse
  status : Option PiBridgeStatusRecord
deriving DecidableEq, Repr

/-- The `finally` block of `request` (lines 236-246): delete each of the
three artifacts that exists. -/
def cleanupArtifacts (a : ArtifactState) : ArtifactState :=
  { request := if a.request.isSome then none else a.request
    response := if a.response.isSome then none else a.response
    status := if a.status.isSome then none else a.status }

/-- The complete outcome of one `request` call: its return value (or
raised error), the artifacts for its id after the `finally` block, and
every status handed to `onStatus`. -/
structure RequestOutcome where
  result : Except BridgeError PiBridgeResponse
  artifacts : ArtifactState
  emittedStatuses : List PiBridgeStatusRecord
deriving DecidableEq, Repr

/-- `FileQueuePiBridgeClient.request` from `pi-bridge-client.ts` lines
193-247. `clientTimeoutMs` is the class field `this.timeoutMs` (the
only timeout the method consults; its signature takes no per-call
timeout). `id` stands for the generated `randomUUID()` and
`createdAtIso` for `new Date().toISOString()`. The request artifact is
written first; if a handler was supplied a synthetic `received` status
is pushed; then the poll loop runs and the `finally` block deletes the
request, response and status artifacts for the id on every path. -/
def bridgeRequest (clientTimeoutMs : Nat) (req : PiBridgeRequestRecord)
    (id : String) (createdAtIso : String) (env : Nat → EnvView)
    (onStatusProvided : Bool) : RequestOutcome :=
  let payload : PiBridgeQueuedRequest := ⟨id, createdAtIso, req⟩
  let initialStatuses :=
    if onStatusProvided then
      [⟨id, "received", "我收到了你的消息，已经开始处理。", createdAtIso⟩]
    else ([] : List PiBridgeStatusRecord)
  let (waited, exitTick, emitted) := waitForResponse env onStatusProvided clientTimeoutMs
  let result : Except BridgeError PiBridgeResponse :=
    match waited with
    | Except.ok response =>
      if response.ok = false then
        Except.error (BridgeError.workerReported (response.error.getD "pi bridge request failed"))
      else
        Except.ok ⟨response.text.getD ""⟩
    | Except.error e => Except.error e
  let atExit : ArtifactState := ⟨some payload, (env exitTick).responseFile, (env exitTick).statusFile⟩
  ⟨result, cleanupArtifacts atExit, initialStatuses ++ emitted⟩

/-! ## Theorems -/

/-! ### Supporting lemmas -/

theorem mapInsert_mem {acc : List ExecutionPlanStep} {s x : ExecutionPlanStep}
    (hx : x ∈ mapInsert acc s) : x ∈ acc ∨ x = s := by
  unfold mapInsert at hx
  by_cases h : acc.any (fun t => t.id = s.id)
  · rw [if_pos h] at hx
    rcases List.mem_map.mp hx with ⟨t, ht, rfl⟩
    by_cases hid : t.id = s.id
    · right; simp [hid]
    · left; simpa [hid] using ht
  · rw [if_neg h] at hx
    rcases List.mem_append.mp hx with h' | h'
    · exact Or.inl h'
    · exact Or.inr (List.mem_singleton.mp h')

theorem mapInsert_ne_nil (acc : List ExecutionPlanStep) (s : ExecutionPlanStep) :
    mapInsert acc s ≠ [] := by
  unfold mapInsert
  by_cases h : acc.any (fun t => t.id = s.id)
  · rw [if_pos h]
    intro hmap
    rcases List.any_eq_true.mp h with ⟨t, ht, _⟩
    exact absurd (List.map_eq_nil_iff.mp hmap) (List.ne_nil_of_mem ht)
  · rw [if_neg h]
    simp

theorem mapInsert_ids_nodup {acc : List ExecutionPlanStep} (s : ExecutionPlanStep)
    (h : (acc.map (fun t => t.id)).Nodup) :
    ((mapInsert acc s).map (fun t => t.id)).Nodup := by
  unfold mapInsert
  by_cases hany : acc.any (fun t => t.id = s.id)
  · rw [if_pos hany]
    have hids : (acc.map (fun t => if t.id = s.id then s else t)).map (fun t => t.id) =
        acc.map (fun t => t.id) := by
      rw [List.map_map]
      refine List.map_congr_left ?_
      intro t _
      by_cases hid : t.id = s.id <;> simp [hid]
    rw [hids]
    exact h
  · rw [if_neg hany]
    rw [List.map_append]
    refine h.append (List.nodup_singleton _) ?_
    intro x hx hx'
    rcases List.mem_map.mp hx with ⟨t, ht, rfl⟩
    have hts : t.id = s.id := by simpa using hx'
    exact (List.any_eq_true.not.mp hany) ⟨t, ht, by simp [hts]⟩

theorem foldl_mapInsert_mem :
    ∀ (steps : List ExecutionPlanStep) (acc : List ExecutionPlanStep) (x : ExecutionPlanStep),
      x ∈ steps.foldl mapInsert acc → x ∈ acc ∨ x ∈ steps := by
  intro steps
  induction steps with
  | nil => intro acc x hx; exact Or.inl hx
  | cons s rest ih =>
    intro acc x hx
    rw [List.foldl_cons] at hx
    rcases ih (mapInsert acc s) x hx with h | h
    · rcases mapInsert_mem h with h' | h'
      · exact Or.inl h'
      · exact Or.inr (by simp [h'])
    · exact Or.inr (List.mem_cons_of_mem _ h)

theorem foldl_mapInsert_ne_nil :
    ∀ (steps : List ExecutionPlanStep) (acc : List ExecutionPlanStep),
      acc ≠ [] → steps.foldl mapInsert acc ≠ [] := by
  intro steps
  induction steps with
  | nil => intro acc h; simpa using h
  | cons s rest ih =>
    intro acc _
    rw [List.foldl_cons]
    exact ih (mapInsert acc s) (mapInsert_ne_nil acc s)

theorem foldl_mapInsert_ids_nodup :
    ∀ (steps : List ExecutionPlanStep) (acc : List ExecutionPlanStep),
      (acc.map (fun t => t.id)).Nodup →
      ((steps.foldl mapInsert acc).map (fun t => t.id)).Nodup := by
  intro steps
  induction steps with
  | nil => intro acc h; simpa using h
  | cons s rest ih =>
    intro acc h
    rw [List.foldl_cons]
    exact ih (mapInsert acc s) (mapInsert_ids_nodup s h)

theorem foldl_mapInsert_of_nodup :
    ∀ (steps : List ExecutionPlanStep) (acc : List ExecutionPlanStep),
      ((acc ++ steps).map (fun t => t.id)).Nodup →
      steps.foldl mapInsert acc = acc ++ steps := by
  intro steps
  induction steps with
  | nil => intro acc _; simp
  | cons s rest ih =>
    intro acc h
    have hnotin : ¬ acc.any (fun t => t.id = s.id) := by
      intro hany
      rcases List.any_eq_true.mp hany with ⟨t, ht, hts⟩
      have hts' : t.id = s.id := by simpa using hts
      have : (acc.map (fun t => t.id)).Disjoint ((s :: rest).map (fun t => t.id)) := by
        have := h
        rw [List.map_append] at this
        exact List.disjoint_of_nodup_append this
      exact this (List.mem_map_of_mem _ ht) (by simp [hts'])
    have hins : mapInsert acc s = acc ++ [s] := by
      unfold mapInsert
      rw [if_neg hnotin]
    have happ : (acc ++ [s]) ++ rest = acc ++ s :: rest := by simp
    rw [List.foldl_cons, hins, ih (acc ++ [s]) (by simpa [happ] using h)]
    simp

/-- Every entry of the step map comes from the input steps. -/
theorem mapFromSteps_mem {steps : List ExecutionPlanStep} {x : ExecutionPlanStep}
    (hx : x ∈ mapFromSteps steps) : x ∈ steps := by
  rcases foldl_mapInsert_mem steps [] x hx with h | h
  · cases h
  · exact h

/-- The step map of a nonempty step list is nonempty. -/
theorem mapFromSteps_ne_nil {steps : List ExecutionPlanStep} (h : steps ≠ []) :
    mapFromSteps steps ≠ [] := by
  cases steps with
  | nil => exact absurd rfl h
  | cons s rest =>
    unfold mapFromSteps
    rw [List.foldl_cons]
    exact foldl_mapInsert_ne_nil rest (mapInsert [] s) (mapInsert_ne_nil [] s)

/-- The step map never holds two entries with the same id. -/
theorem mapFromSteps_ids_nodup (steps : List ExecutionPlanStep) :
    ((mapFromSteps steps).map (fun t => t.id)).Nodup :=
  foldl_mapInsert_ids_nodup steps [] (by simp)

/-- On a step list with pairwise distinct ids the step map is the list
itself. -/
theorem mapFromSteps_of_nodup {steps : List ExecutionPlanStep}
    (h : (steps.map (fun t => t.id)).Nodup) : mapFromSteps steps = steps :=
  foldl_mapInsert_of_nodup steps [] (by simpa using h)

theorem intercalate_go_length (s : String) :
    ∀ (l : List String) (acc : String),
      acc.length ≤ (String.intercalate.go acc s l).length := by
  intro l
  induction l with
  | nil => intro acc; exact Nat.le_refl _
  | cons a as ih =>
    intro acc
    calc acc.length ≤ (acc ++ s ++ a).length := by
          rw [String.length_append, String.length_append]
          omega
      _ ≤ (String.intercalate.go (acc ++ s ++ a) s as).length := ih _

/-- A rendered step prompt is never trivial: it always holds at least
the `[EXECUTION_STEP:...]` header. -/
theorem buildStepPrompt_length_ge (baseText : String) (step : ExecutionPlanStep)
    (taskCard : ExecutionTaskCard) (results : List StepExecutionResult) :
    5 ≤ (buildStepPrompt baseText step taskCard results).length := by
  unfold buildStepPrompt
  rw [String.intercalate]
  have h1 : 5 ≤ ("[EXECUTION_STEP:" ++ step.id ++ "]").length := by
    rw [String.length_append, String.length_append]
    have : ("[EXECUTION_STEP:" : String).length = 16 := by decide
    omega
  exact Nat.le_trans h1 (intercalate_go_length _ _ _)

/-- The estimated token cost of a rendered step prompt is at least 2. -/
theorem estimateTokens_prompt_ge_two (baseText : String) (step : ExecutionPlanStep)
    (taskCard : ExecutionTaskCard) (results : List StepExecutionResult) :
    2 ≤ estimateTokens (buildStepPrompt baseText step taskCard results) := by
  have h5 := buildStepPrompt_length_ge baseText step taskCard results
  unfold estimateTokens
  have : 2 ≤ ((buildStepPrompt baseText step taskCard results).length + 3) / 4 := by
    rw [Nat.le_div_iff_mul_le (by omega)]
    omega
  omega

theorem insertByKey_flatten_perm (key : String) (step : ExecutionPlanStep) :
    ∀ gs : List (String × List ExecutionPlanStep),
      (((insertByKey key step gs).map (fun g => g.2)).flatten).Perm
        ((gs.map (fun g => g.2)).flatten ++ [step]) := by
  intro gs
  induction gs with
  | nil => simp [insertByKey]
  | cons g rest ih =>
    obtain ⟨k, l⟩ := g
    by_cases hk : k = key
    · simp only [insertByKey, if_pos hk, List.map_cons, List.flatten_cons]
      rw [List.append_assoc, List.append_assoc]
      exact List.Perm.append_left l List.perm_append_comm
    · simp only [insertByKey, if_neg hk, List.map_cons, List.flatten_cons]
      rw [List.append_assoc]
      exact List.Perm.append_left l ih

theorem foldl_insert_flatten_perm :
    ∀ (steps : List ExecutionPlanStep) (gs : List (String × List ExecutionPlanStep)),
      (((steps.foldl (fun groups step => insertByKey (parallelKey step) step groups) gs).map
          (fun g => g.2)).flatten).Perm ((gs.map (fun g => g.2)).flatten ++ steps) := by
  intro steps
  induction steps with
  | nil => intro gs; simp
  | cons s rest ih =>
    intro gs
    rw [List.foldl_cons]
    refine (ih (insertByKey (parallelKey s) s gs)).trans ?_
    refine (List.Perm.append (insertByKey_flatten_perm (parallelKey s) s gs)
      (List.Perm.refl rest)).trans ?_
    rw [List.append_assoc]
    exact List.Perm.refl _

/-- The groups of a wave partition the wave: their concatenation is a
permutation of the ready steps. -/
theorem groupByParallelKey_flatten_perm (steps : List ExecutionPlanStep) :
    ((groupByParallelKey steps).flatten).Perm steps := by
  have h := foldl_insert_flatten_perm steps []
  simpa [groupByParallelKey] using h

/-- Any step of any group of a wave is a step of the wave. -/
theorem mem_of_mem_groupByParallelKey {steps : List ExecutionPlanStep}
    {g : List ExecutionPlanStep} {s : ExecutionPlanStep}
    (hg : g ∈ groupByParallelKey steps) (hs : s ∈ g) : s ∈ steps := by
  have : s ∈ (groupByParallelKey steps).flatten := List.mem_flatten.mpr ⟨g, hg, hs⟩
  exact (groupByParallelKey_flatten_perm steps).mem_iff.mp this

theorem insertByKey_groups_ne_nil (key : String) (step : ExecutionPlanStep) :
    ∀ gs : List (String × List ExecutionPlanStep),
      (∀ g ∈ gs, g.2 ≠ []) → ∀ g ∈ insertByKey key step gs, g.2 ≠ [] := by
  intro gs
  induction gs with
  | nil => intro _ g hg; simp [insertByKey] at hg; simp [hg]
  | cons p rest ih =>
    obtain ⟨k, l⟩ := p
    intro hall g hg
    by_cases hk : k = key
    · simp only [insertByKey, if_pos hk] at hg
      rcases List.mem_cons.mp hg with rfl | hg'
      · simp
      · exact hall g (List.mem_cons_of_mem _ hg')
    · simp only [insertByKey, if_neg hk] at hg
      rcases List.mem_cons.mp hg with rfl | hg'
      · exact hall (k, l) (List.mem_cons_self _ _)
      · exact ih (fun g' hg' => hall g' (List.mem_cons_of_mem _ hg')) g hg'

/-- Every group of a wave is nonempty. -/
theorem groupByParallelKey_groups_ne_nil (steps : List ExecutionPlanStep) :
    ∀ g ∈ groupByParallelKey steps, g ≠ [] := by
  have haux : ∀ (l : List ExecutionPlanStep) (gs : List (String × List ExecutionPlanStep)),
      (∀ g ∈ gs, g.2 ≠ []) →
      ∀ g ∈ (l.foldl (fun groups step => insertByKey (parallelKey step) step groups) gs), g.2 ≠ [] := by
    intro l
    induction l with
    | nil => intro gs h; simpa using h
    | cons s rest ih =>
      intro gs h
      rw [List.foldl_cons]
      exact ih _ (insertByKey_groups_ne_nil (parallelKey s) s gs h)
  intro g hg
  rcases List.mem_map.mp hg with ⟨p, hp, rfl⟩
  exact haux steps [] (by simp) p hp

/-- A wave of a nonempty ready set has at least one group. -/
theorem groupByParallelKey_ne_nil {steps : List ExecutionPlanStep} (h : steps ≠ []) :
    groupByParallelKey steps ≠ [] := by
  intro hnil
  have hperm := groupByParallelKey_flatten_perm steps
  rw [hnil, List.flatten_nil] at hperm
  exact h hperm.symm.eq_nil

theorem runStep_log_eq (bridge : String → Except String String) (baseText : String)
    (taskCard : ExecutionTaskCard) (results : List StepExecutionResult)
    (totalIn totalOut : Nat) (completed : List String) (step : ExecutionPlanStep) :
    (runStep bridge baseText taskCard results totalIn totalOut completed step).1 = [] ∨
    (runStep bridge baseText taskCard results totalIn totalOut completed step).1 =
      [⟨step.id, step.dependsOn, completed⟩] := by
  simp only [runStep]
  split
  · exact Or.inl rfl
  · split
    · exact Or.inr rfl
    · split
      · exact Or.inr rfl
      · exact Or.inr rfl

theorem runStep_ok {bridge : String → Except String String} {baseText : String}
    {taskCard : ExecutionTaskCard} {results : List StepExecutionResult}
    {totalIn totalOut : Nat} {completed : List String} {step : ExecutionPlanStep}
    {r : StepExecutionResult}
    (h : (runStep bridge baseText taskCard results totalIn totalOut completed step).2 =
      Except.ok r) :
    (runStep bridge baseText taskCard results totalIn totalOut completed step).1 =
      [⟨step.id, step.dependsOn, completed⟩] ∧ r.stepId = step.id := by
  simp only [runStep] at h ⊢
  by_cases h1 : totalIn + estimateTokens (buildStepPrompt baseText step taskCard results) >
      taskCard.budget.tokenBudget
  · rw [if_pos h1] at h
    cases h
  · rw [if_neg h1] at h ⊢
    rcases hb : bridge (buildStepPrompt baseText step taskCard results) with msg | text
    · rw [hb] at h
      dsimp only at h
      cases h
    · rw [hb] at h
      dsimp only at h
      by_cases h2 : totalIn + estimateTokens (buildStepPrompt baseText step taskCard results) +
          totalOut + estimateTokens text > taskCard.budget.tokenBudget
      · rw [if_pos h2] at h
        cases h
      · rw [if_neg h2] at h
        dsimp only
        rw [if_neg h2]
        cases h
        exact ⟨rfl, rfl⟩

theorem runStep_budget_before {bridge : String → Except String String} {baseText : String}
    {taskCard : ExecutionTaskCard} {results : List StepExecutionResult}
    {totalIn totalOut : Nat} {completed : List String} {step : ExecutionPlanStep}
    (hover : taskCard.budget.tokenBudget <
      totalIn + estimateTokens (buildStepPrompt baseText step taskCard results)) :
    runStep bridge baseText taskCard results totalIn totalOut completed step =
      ([], Except.error (ExecError.budgetBefore step.worker)) := by
  simp only [runStep]
  rw [if_pos hover]

theorem runStep_budget_one {bridge : String → Except String String} {baseText : String}
    {taskCard : ExecutionTaskCard} {results : List StepExecutionResult}
    {totalIn totalOut : Nat} {completed : List String} (step : ExecutionPlanStep)
    (hbudget : taskCard.budget.tokenBudget ≤ 1) :
    runStep bridge baseText taskCard results totalIn totalOut completed step =
      ([], Except.error (ExecError.budgetBefore step.worker)) := by
  refine runStep_budget_before ?_
  have h2 := estimateTokens_prompt_ge_two baseText step taskCard results
  omega

theorem runGroup_log_mem {bridge : String → Except String String} {baseText : String}
    {taskCard : ExecutionTaskCard} {results : List StepExecutionResult}
    {totalIn totalOut : Nat} {completed : List String} {group : List ExecutionPlanStep}
    {e : DispatchEvent}
    (he : e ∈ (runGroup bridge baseText taskCard results totalIn totalOut completed group).1) :
    ∃ s ∈ group, e = (⟨s.id, s.dependsOn, completed⟩ : DispatchEvent) := by
  simp only [runGroup] at he
  rcases List.mem_flatten.mp he with ⟨l, hl, hel⟩
  rw [List.map_map] at hl
  rcases List.mem_map.mp hl with ⟨s, hs, rfl⟩
  rcases runStep_log_eq bridge baseText taskCard results totalIn totalOut completed s with h | h
  · rw [Function.comp_apply, h] at hel
    cases hel
  · rw [Function.comp_apply, h] at hel
    exact ⟨s, hs, List.mem_singleton.mp hel⟩

theorem runGroup_nil (bridge : String → Except String String) (baseText : String)
    (taskCard : ExecutionTaskCard) (results : List StepExecutionResult)
    (totalIn totalOut : Nat) (completed : List String) :
    runGroup bridge baseText taskCard results totalIn totalOut completed [] =
      ([], Except.ok []) := rfl

theorem runGroup_cons (bridge : String → Except String String) (baseText : String)
    (taskCard : ExecutionTaskCard) (results : List StepExecutionResult)
    (totalIn totalOut : Nat) (completed : List String) (s : ExecutionPlanStep)
    (rest : List ExecutionPlanStep) :
    runGroup bridge baseText taskCard results totalIn totalOut completed (s :: rest) =
      ((runStep bridge baseText taskCard results totalIn totalOut completed s).1 ++
          (runGroup bridge baseText taskCard results totalIn totalOut completed rest).1,
        match (runStep bridge baseText taskCard results totalIn totalOut completed s).2 with
        | Except.error e => Except.error e
        | Except.ok r =>
          match (runGroup bridge baseText taskCard results totalIn totalOut completed rest).2 with
          | Except.error e => Except.error e
          | Except.ok rs => Except.ok (r :: rs)) := by
  simp only [runGroup, List.map_cons, List.flatten_cons, collectResults]

theorem runGroup_ok {bridge : String → Except String String} {baseText : String}
    {taskCard : ExecutionTaskCard} {results : List StepExecutionResult}
    {totalIn totalOut : Nat} {completed : List String} :
    ∀ {group : List ExecutionPlanStep} {rs : List StepExecutionResult},
      (runGroup bridge baseText taskCard results totalIn totalOut completed group).2 =
        Except.ok rs →
      (runGroup bridge baseText taskCard results totalIn totalOut completed group).1.map
          (fun e => e.stepId) = group.map (fun s => s.id) ∧
        rs.map (fun r => r.stepId) = group.map (fun s => s.id) := by
  intro group
  induction group with
  | nil =>
    intro rs h
    rw [runGroup_nil] at h ⊢
    cases h
    exact ⟨rfl, rfl⟩
  | cons s rest ih =>
    intro rs h
    rw [runGroup_cons] at h ⊢
    rcases hs : (runStep bridge baseText taskCard results totalIn totalOut completed s).2 with e | r0
    · rw [hs] at h
      cases h
    · rw [hs] at h
      rcases hrest : (runGroup bridge baseText taskCard results totalIn totalOut completed rest).2
        with e | rs'
      · rw [hrest] at h
        cases h
      · rw [hrest] at h
        cases h
        obtain ⟨hlog, hres⟩ := ih hrest
        obtain ⟨hsl, hsid⟩ := runStep_ok hs
        constructor
        · rw [List.map_append, hsl, hlog]
          simp
        · simp [hres, hsid]

theorem runGroups_nil (bridge : String → Except String String) (baseText : String)
    (taskCard : ExecutionTaskCard) (results : List StepExecutionResult)
    (totalIn totalOut : Nat) (completed : List String) :
    runGroups bridge baseText taskCard [] results totalIn totalOut completed =
      ([], Except.ok (results, totalIn, totalOut, completed)) := rfl

theorem runGroups_cons (bridge : String → Except String String) (baseText : String)
    (taskCard : ExecutionTaskCard) (g : List ExecutionPlanStep)
    (rest : List (List ExecutionPlanStep)) (results : List StepExecutionResult)
    (totalIn totalOut : Nat) (completed : List String) :
    runGroups bridge baseText taskCard (g :: rest) results totalIn totalOut completed =
      (match (runGroup bridge baseText taskCard results totalIn totalOut completed g).2 with
        | Except.error e =>
          ((runGroup bridge baseText taskCard results totalIn totalOut completed g).1,
            Except.error e)
        | Except.ok groupResults =>
          ((runGroup bridge baseText taskCard results totalIn totalOut completed g).1 ++
              (runGroups bridge baseText taskCard rest (results ++ groupResults)
                (totalIn + sumInputTokens groupResults)
                (totalOut + sumOutputTokens groupResults)
                (completed ++ groupResults.map (fun r => r.stepId))).1,
            (runGroups bridge baseText taskCard rest (results ++ groupResults)
              (totalIn + sumInputTokens groupResults)
              (totalOut + sumOutputTokens groupResults)
              (completed ++ groupResults.map (fun r => r.stepId))).2)) := by
  cases hrg : runGroup bridge baseText taskCard results totalIn totalOut completed g with
  | mk log outcome =>
    cases outcome <;> simp only [runGroups, hrg]

theorem runGroups_log_mem {bridge : String → Except String String} {baseText : String}
    {taskCard : ExecutionTaskCard} :
    ∀ (groups : List (List ExecutionPlanStep)) (results : List StepExecutionResult)
      (totalIn totalOut : Nat) (completed : List String) (e : DispatchEvent),
      e ∈ (runGroups bridge baseText taskCard groups results totalIn totalOut completed).1 →
      ∃ s c', (∃ g ∈ groups, s ∈ g) ∧
        e = (⟨s.id, s.dependsOn, c'⟩ : DispatchEvent) ∧ completed ⊆ c' := by
  intro groups
  induction groups with
  | nil =>
    intro results totalIn totalOut completed e he
    rw [runGroups_nil] at he
    cases he
  | cons g rest ih =>
    intro results totalIn totalOut completed e he
    rw [runGroups_cons] at he
    rcases hout : (runGroup bridge baseText taskCard results totalIn totalOut completed g).2
      with err | groupResults
    · rw [hout] at he
      rcases runGroup_log_mem he with ⟨s, hs, rfl⟩
      exact ⟨s, completed, ⟨g, List.mem_cons_self _ _, hs⟩, rfl, List.Subset.refl _⟩
    · rw [hout] at he
      rcases List.mem_append.mp he with h | h
      · rcases runGroup_log_mem h with ⟨s, hs, rfl⟩
        exact ⟨s, completed, ⟨g, List.mem_cons_self _ _, hs⟩, rfl, List.Subset.refl _⟩
      · rcases ih _ _ _ _ _ h with ⟨s, c', ⟨g', hg', hs⟩, rfl, hsub⟩
        refine ⟨s, c', ⟨g', List.mem_cons_of_mem _ hg', hs⟩, rfl, ?_⟩
        exact List.Subset.trans (List.subset_append_left _ _) hsub

theorem runGroups_ok {bridge : String → Except String String} {baseText : String}
    {taskCard : ExecutionTaskCard} :
    ∀ (groups : List (List ExecutionPlanStep)) (results : List StepExecutionResult)
      (totalIn totalOut : Nat) (completed : List String) (rs : List StepExecutionResult)
      (ti' to' : Nat) (c' : List String),
      (runGroups bridge baseText taskCard groups results totalIn totalOut completed).2 =
        Except.ok (rs, ti', to', c') →
      (runGroups bridge baseText taskCard groups results totalIn totalOut completed).1.map
          (fun e => e.stepId) = (groups.flatten).map (fun s => s.id) := by
  intro groups
  induction groups with
  | nil =>
    intro results totalIn totalOut completed rs ti' to' c' _
    rw [runGroups_nil]
    simp
  | cons g rest ih =>
    intro results totalIn totalOut completed rs ti' to' c' h
    rw [runGroups_cons] at h ⊢
    rcases hout : (runGroup bridge baseText taskCard results totalIn totalOut completed g).2
      with err | groupResults
    · rw [hout] at h
      cases h
    · rw [hout] at h
      rcases hrest : (runGroups bridge baseText taskCard rest (results ++ groupResults)
          (totalIn + sumInputTokens groupResults) (totalOut + sumOutputTokens groupResults)
          (completed ++ groupResults.map (fun r => r.stepId))).2 with err2 | ok2
      · rw [hrest] at h
        cases h
      · obtain ⟨hglog, _⟩ := runGroup_ok hout
        obtain ⟨rs2, ti2, to2, c2⟩ := ok2
        rw [List.map_append, List.flatten_cons, List.map_append, hglog,
          ih _ _ _ _ rs2 ti2 to2 c2 hrest]

theorem execLoop_empty {bridge : String → Except String String} {baseText : String}
    {taskCard : ExecutionTaskCard} {remaining : List ExecutionPlanStep}
    {completed : List String} {results : List StepExecutionResult} {totalIn totalOut : Nat}
    (fuel : Nat) (h : remaining.isEmpty = true) :
    execLoop bridge baseText taskCard fuel remaining completed results totalIn totalOut =
      ([], Except.ok (results, totalIn, totalOut)) := by
  cases fuel <;> simp [execLoop, h]

theorem execLoop_stuck {bridge : String → Except String String} {baseText : String}
    {taskCard : ExecutionTaskCard} {remaining : List ExecutionPlanStep}
    {completed : List String} {results : List StepExecutionResult} {totalIn totalOut : Nat}
    (fuel : Nat) (hne : remaining.isEmpty = false)
    (hready : (selectReadySteps completed remaining).isEmpty = true) :
    execLoop bridge baseText taskCard fuel remaining completed results totalIn totalOut =
      ([], Except.error ExecError.planStuck) := by
  cases fuel <;> simp [execLoop, hne, hready]

theorem execLoop_zero {bridge : String → Except String String} {baseText : String}
    {taskCard : ExecutionTaskCard} {remaining : List ExecutionPlanStep}
    {completed : List String} {results : List StepExecutionResult} {totalIn totalOut : Nat}
    (hne : remaining.isEmpty = false)
    (hready : (selectReadySteps completed remaining).isEmpty = false) :
    execLoop bridge baseText taskCard 0 remaining completed results totalIn totalOut =
      ([], Except.error ExecError.planStuck) := by
  simp [execLoop, hne, hready]

theorem execLoop_succ {bridge : String → Except String String} {baseText : String}
    {taskCard : ExecutionTaskCard} {remaining : List ExecutionPlanStep}
    {completed : List String} {results : List StepExecutionResult} {totalIn totalOut : Nat}
    (fuel : Nat) (hne : remaining.isEmpty = false)
    (hready : (selectReadySteps completed remaining).isEmpty = false) :
    execLoop bridge baseText taskCard (fuel + 1) remaining completed results totalIn totalOut =
      (match (runGroups bridge baseText taskCard
          (groupByParallelKey (selectReadySteps completed remaining))
          results totalIn totalOut completed).2 with
        | Except.error e =>
          ((runGroups bridge baseText taskCard
              (groupByParallelKey (selectReadySteps completed remaining))
              results totalIn totalOut completed).1, Except.error e)
        | Except.ok (results', totalIn', totalOut', completed') =>
          ((runGroups bridge baseText taskCard
              (groupByParallelKey (selectReadySteps completed remaining))
              results totalIn totalOut completed).1 ++
              (execLoop bridge baseText taskCard fuel
                (remaining.filter (fun s =>
                  !(((selectReadySteps completed remaining).map (fun t => t.id)).contains s.id)))
                completed' results' totalIn' totalOut').1,
            (execLoop bridge baseText taskCard fuel
              (remaining.filter (fun s =>
                !(((selectReadySteps completed remaining).map (fun t => t.id)).contains s.id)))
              completed' results' totalIn' totalOut').2)) := by
  have hne' : ¬(remaining.isEmpty = true) := by simp [hne]
  have hready' : ¬((selectReadySteps completed remaining).isEmpty = true) := by simp [hready]
  conv_lhs => rw [execLoop]
  rw [if_neg hne', if_neg hready']

/-- Dispatch safety of the wave loop: every bridge request recorded by
`execLoop` was issued with all of its step's declared dependencies
already completed. -/
theorem execLoop_log_safe {bridge : String → Except String String} {baseText : String}
    {taskCard : ExecutionTaskCard} :
    ∀ (fuel : Nat) (remaining : List ExecutionPlanStep) (completed : List String)
      (results : List StepExecutionResult) (totalIn totalOut : Nat)
      (e : DispatchEvent),
      e ∈ (execLoop bridge baseText taskCard fuel remaining completed results totalIn totalOut).1 →
      SafeEvent e := by
  intro fuel
  induction fuel with
  | zero =>
    intro remaining completed results totalIn totalOut e he
    by_cases h1 : remaining.isEmpty
    · rw [execLoop_empty 0 h1] at he
      cases he
    · by_cases h2 : (selectReadySteps completed remaining).isEmpty
      · rw [execLoop_stuck 0 (Bool.not_eq_true _ ▸ h1 : _) h2] at he
        cases he
      · rw [execLoop_zero (by simpa using h1) (by simpa using h2)] at he
        cases he
  | succ fuel ih =>
    intro remaining completed results totalIn totalOut e he
    by_cases h1 : remaining.isEmpty
    · rw [execLoop_empty (fuel + 1) h1] at he
      cases he
    · by_cases h2 : (selectReadySteps completed remaining).isEmpty
      · rw [execLoop_stuck (fuel + 1) (by simpa using h1) h2] at he
        cases he
      · rw [execLoop_succ fuel (by simpa using h1) (by simpa using h2)] at he
        have hwave : ∀ e', e' ∈ (runGroups bridge baseText taskCard
            (groupByParallelKey (selectReadySteps completed remaining))
            results totalIn totalOut completed).1 → SafeEvent e' := by
          intro e' he'
          rcases runGroups_log_mem _ _ _ _ _ _ he' with ⟨s, c', ⟨g, hg, hs⟩, rfl, hsub⟩
          have hready : s ∈ selectReadySteps completed remaining :=
            mem_of_mem_groupByParallelKey hg hs
          have hdeps := (List.mem_filter.mp hready).2
          intro d hd
          have hc : completed.contains d = true := by
            have := List.all_eq_true.mp hdeps d hd
            simpa using this
          exact hsub (List.elem_iff.mp hc)
        rcases hout : (runGroups bridge baseText taskCard
            (groupByParallelKey (selectReadySteps completed remaining))
            results totalIn totalOut completed).2 with err | tuple
        · rw [hout] at he
          exact hwave e he
        · obtain ⟨results', totalIn', totalOut', completed'⟩ := tuple
          rw [hout] at he
          dsimp only at he
          rcases List.mem_append.mp he with h | h
          · exact hwave e h
          · exact ih _ _ _ _ _ e h

/-- When the wave loop drains successfully, the ids of the recorded
bridge requests are a permutation of the ids of the remaining steps. -/
theorem execLoop_ok_perm {bridge : String → Except String String} {baseText : String}
    {taskCard : ExecutionTaskCard} :
    ∀ (fuel : Nat) (remaining : List ExecutionPlanStep) (completed : List String)
      (results : List StepExecutionResult) (totalIn totalOut : Nat)
      (rs : List StepExecutionResult) (ti' to' : Nat),
      (remaining.map (fun t => t.id)).Nodup →
      (execLoop bridge baseText taskCard fuel remaining completed results totalIn totalOut).2 =
        Except.ok (rs, ti', to') →
      ((execLoop bridge baseText taskCard fuel remaining completed results totalIn
          totalOut).1.map (fun e => e.stepId)).Perm (remaining.map (fun t => t.id)) := by
  intro fuel
  induction fuel with
  | zero =>
    intro remaining completed results totalIn totalOut rs ti' to' _ hok
    by_cases h1 : remaining.isEmpty
    · rw [execLoop_empty 0 h1]
      rw [List.isEmpty_iff.mp h1]
      exact List.Perm.refl _
    · by_cases h2 : (selectReadySteps completed remaining).isEmpty
      · rw [execLoop_stuck 0 (by simpa using h1) h2] at hok
        cases hok
      · rw [execLoop_zero (by simpa using h1) (by simpa using h2)] at hok
        cases hok
  | succ fuel ih =>
    intro remaining completed results totalIn totalOut rs ti' to' hnodup hok
    by_cases h1 : remaining.isEmpty
    · rw [execLoop_empty (fuel + 1) h1]
      rw [List.isEmpty_iff.mp h1]
      exact List.Perm.refl _
    · by_cases h2 : (selectReadySteps completed remaining).isEmpty
      · rw [execLoop_stuck (fuel + 1) (by simpa using h1) h2] at hok
        cases hok
      · have h1' : remaining.isEmpty = false := by simpa using h1
        have h2' : (selectReadySteps completed remaining).isEmpty = false := by simpa using h2
        revert hok
        rw [execLoop_succ fuel h1' h2']
        cases hrg : runGroups bridge baseText taskCard
            (groupByParallelKey (selectReadySteps completed remaining))
            results totalIn totalOut completed with
        | mk wlog outcome =>
          cases outcome with
          | error err =>
            dsimp only
            intro hok
            cases hok
          | ok tuple =>
            obtain ⟨results', totalIn', totalOut', completed'⟩ := tuple
            dsimp only
            intro hok
            have hout : (runGroups bridge baseText taskCard
                (groupByParallelKey (selectReadySteps completed remaining))
                results totalIn totalOut completed).2 =
                Except.ok (results', totalIn', totalOut', completed') := by rw [hrg]
            have hwlog : (runGroups bridge baseText taskCard
                (groupByParallelKey (selectReadySteps completed remaining))
                results totalIn totalOut completed).1 = wlog := by rw [hrg]
            have hwave : (wlog.map (fun e => e.stepId)).Perm
                ((selectReadySteps completed remaining).map (fun t => t.id)) := by
              rw [← hwlog, runGroups_ok _ _ _ _ _ results' totalIn' totalOut' completed' hout]
              exact List.Perm.map _ (groupByParallelKey_flatten_perm _)
            have hsubnodup : ((remaining.filter (fun s =>
                !(((selectReadySteps completed remaining).map (fun t => t.id)).contains
                  s.id))).map (fun t => t.id)).Nodup :=
              List.Nodup.sublist (List.Sublist.map _ (List.filter_sublist _)) hnodup
            have hrec := ih _ completed' results' totalIn' totalOut' rs ti' to' hsubnodup hok
            have hfilter : remaining.filter (fun s =>
                !(((selectReadySteps completed remaining).map (fun t => t.id)).contains s.id)) =
                remaining.filter (fun s =>
                  !(s.dependsOn.all (fun d => completed.contains d))) := by
              refine List.filter_congr ?_
              intro s hs
              cases hall : s.dependsOn.all (fun d => completed.contains d) with
              | true =>
                have hsready : s ∈ selectReadySteps completed remaining :=
                  List.mem_filter.mpr ⟨hs, hall⟩
                have hmem : s.id ∈ (selectReadySteps completed remaining).map (fun t => t.id) :=
                  List.mem_map_of_mem _ hsready
                have hc : ((selectReadySteps completed remaining).map
                    (fun t => t.id)).contains s.id = true := List.elem_iff.mpr hmem
                rw [hc]
              | false =>
                have hc : ((selectReadySteps completed remaining).map
                    (fun t => t.id)).contains s.id = false := by
                  cases hcon : ((selectReadySteps completed remaining).map
                      (fun t => t.id)).contains s.id with
                  | false => rfl
                  | true =>
                    exfalso
                    have hmem : s.id ∈ (selectReadySteps completed remaining).map
                        (fun t => t.id) := List.elem_iff.mp hcon
                    rcases List.mem_map.mp hmem with ⟨t, htready, htid⟩
                    have htrem : t ∈ remaining := List.mem_of_mem_filter htready
                    have hpt := (List.mem_filter.mp htready).2
                    have hts : t = s := List.inj_on_of_nodup_map hnodup htrem hs htid
                    rw [hts] at hpt
                    rw [hall] at hpt
                    cases hpt
                rw [hc]
            have hsplit : (((selectReadySteps completed remaining) ++
                remaining.filter (fun s =>
                  !(s.dependsOn.all (fun d => completed.contains d)))).map
                    (fun t => t.id)).Perm (remaining.map (fun t => t.id)) :=
              List.Perm.map _ (List.filter_append_perm _ remaining)
            rw [← hfilter] at hsplit
            rw [List.map_append]
            refine (List.Perm.append hwave hrec).trans ?_
            rw [← List.map_append]
            exact hsplit

/-- When the budget cannot even cover one rendered prompt, every step of
a group fails its pre-call budget check: no bridge request is issued
and the group rejects with the first step's `budgetBefore` error. -/
theorem runGroup_budget_one {bridge : String → Except String String} {baseText : String}
    {taskCard : ExecutionTaskCard} (hbudget : taskCard.budget.tokenBudget ≤ 1) :
    ∀ (group : List ExecutionPlanStep) (results : List StepExecutionResult)
      (totalIn totalOut : Nat) (completed : List String),
      runGroup bridge baseText taskCard results totalIn totalOut completed group =
        ([], match group with
          | [] => Except.ok []
          | t :: _ => Except.error (ExecError.budgetBefore t.worker)) := by
  intro group
  induction group with
  | nil =>
    intro results totalIn totalOut completed
    rw [runGroup_nil]
  | cons t ts ih =>
    intro results totalIn totalOut completed
    rw [runGroup_cons, runStep_budget_one t hbudget, ih results totalIn totalOut completed]
    cases ts <;> rfl

theorem executePlan_error {bridge : String → Except String String} {baseText : String}
    {plan : ExecutionPlan} {taskCard : ExecutionTaskCard} {log : List DispatchEvent}
    {e : ExecError} (hne : plan.steps ≠ [])
    (h : execLoop bridge baseText taskCard (mapFromSteps plan.steps).length
      (mapFromSteps plan.steps) [] [] 0 0 = (log, Except.error e)) :
    executePlan bridge baseText plan taskCard = (log, Except.error e) := by
  have hlen : plan.steps.length > 0 := List.length_pos.mpr hne
  simp only [executePlan, if_pos hlen, h]

theorem executePlan_fst {bridge : String → Except String String} {baseText : String}
    {plan : ExecutionPlan} {taskCard : ExecutionTaskCard} (hne : plan.steps ≠ []) :
    (executePlan bridge baseText plan taskCard).1 =
      (execLoop bridge baseText taskCard (mapFromSteps plan.steps).length
        (mapFromSteps plan.steps) [] [] 0 0).1 := by
  have hlen : plan.steps.length > 0 := List.length_pos.mpr hne
  cases hel : execLoop bridge baseText taskCard (mapFromSteps plan.steps).length
      (mapFromSteps plan.steps) [] [] 0 0 with
  | mk log outcome =>
    cases outcome with
    | error e => simp only [executePlan, if_pos hlen, hel]
    | ok tuple =>
      obtain ⟨rs, ti, tout⟩ := tuple
      simp only [executePlan, if_pos hlen, hel]

theorem executePlan_ok {bridge : String → Except String String} {baseText : String}
    {plan : ExecutionPlan} {taskCard : ExecutionTaskCard}
    {result : PlanExecutionResult} (hne : plan.steps ≠ [])
    (h : (executePlan bridge baseText plan taskCard).2 = Except.ok result) :
    ∃ rs ti tout, execLoop bridge baseText taskCard (mapFromSteps plan.steps).length
      (mapFromSteps plan.steps) [] [] 0 0 =
        ((executePlan bridge baseText plan taskCard).1, Except.ok (rs, ti, tout)) := by
  have hlen : plan.steps.length > 0 := List.length_pos.mpr hne
  cases hel : execLoop bridge baseText taskCard (mapFromSteps plan.steps).length
      (mapFromSteps plan.steps) [] [] 0 0 with
  | mk log outcome =>
    cases outcome with
    | error e =>
      rw [executePlan_error hne hel] at h
      cases h
    | ok tuple =>
      obtain ⟨rs, ti, tout⟩ := tuple
      refine ⟨rs, ti, tout, ?_⟩
      rw [executePlan_fst hne, hel]

/-- C10: `createTaskCard` assigns budgets purely from the inferred risk
level — tokenBudget 12000 (low), 30000 (medium), 20000 (high), so any
high-risk task gets a strictly smaller token budget than any
medium-risk task — and timeoutMs is 180000 for low risk, 600000
otherwise. -/
theorem c10_createTaskCard_budgets (intent i1 i2 : UserMessageIntent)
    (h1 : inferRiskLevel i1 = RiskLevel.high)
    (h2 : inferRiskLevel i2 = RiskLevel.medium) :
    (createTaskCard intent).riskLevel = inferRiskLevel intent ∧
    (createTaskCard intent).budget.tokenBudget =
      (match inferRiskLevel intent with
        | RiskLevel.low => 12000
        | RiskLevel.medium => 30000
        | RiskLevel.high => 20000) ∧
    (createTaskCard intent).budget.timeoutMs =
      (if inferRiskLevel intent = RiskLevel.low then 180000 else 600000) ∧
    (createTaskCard i1).budget.tokenBudget < (createTaskCard i2).budget.tokenBudget := by
  refine ⟨rfl, ?_, ?_, ?_⟩
  · cases h : inferRiskLevel intent <;> simp [createTaskCard, h]
  · cases h : inferRiskLevel intent <;> simp [createTaskCard, h]
  · simp [createTaskCard, h1, h2]

/-- Witness for C10 at concrete intents: a high-risk goal (matches the
`drop` pattern) and a plain medium-risk goal. -/
theorem c10_createTaskCard_budgets_witness :
    (createTaskCard ⟨IntentType.chat, "hello", [], [], "p"⟩).riskLevel =
      inferRiskLevel ⟨IntentType.chat, "hello", [], [], "p"⟩ ∧
    (createTaskCard ⟨IntentType.chat, "hello", [], [], "p"⟩).budget.tokenBudget =
      (match inferRiskLevel ⟨IntentType.chat, "hello", [], [], "p"⟩ with
        | RiskLevel.low => 12000
        | RiskLevel.medium => 30000
        | RiskLevel.high => 20000) ∧
    (createTaskCard ⟨IntentType.chat, "hello", [], [], "p"⟩).budget.timeoutMs =
      (if inferRiskLevel ⟨IntentType.chat, "hello", [], [], "p"⟩ = RiskLevel.low then 180000 else 600000) ∧
    (createTaskCard ⟨IntentType.execute, "drop x", [], [], "p"⟩).budget.tokenBudget <
      (createTaskCard ⟨IntentType.execute, "做点事", [], [], "p"⟩).budget.tokenBudget :=
  c10_createTaskCard_budgets ⟨IntentType.chat, "hello", [], [], "p"⟩
    ⟨IntentType.execute, "drop x", [], [], "p"⟩ ⟨IntentType.execute, "做点事", [], [], "p"⟩
    (by decide) (by decide)

/-- C9 counterexample: a non-execute intent with a high-risk task card
and a `confirm_before_execute` profile returns `false`, although the
claim (quantified over every intent) demands `true` whenever the policy
demands confirmation or the risk is high. -/
theorem c9_counterexample :
    requiresExecutionConfirmation ⟨IntentType.question, "删除 foo", [], [], "p"⟩
      ⟨"o", [], [], RiskLevel.high, ⟨20000, 600000⟩⟩
      ⟨"d", "t", "v", "confirm_before_execute", []⟩ = false ∧
    (⟨"o", [], [], RiskLevel.high, ⟨20000, 600000⟩⟩ : ExecutionTaskCard).riskLevel = RiskLevel.high ∧
    (⟨"d", "t", "v", "confirm_before_execute", []⟩ : ConversationProfile).interactionPolicy =
      "confirm_before_execute" := by
  refine ⟨rfl, rfl, rfl⟩

/-- C9 (amended): `requiresExecutionConfirmation` returns true exactly
when the intent is an execute intent and (the interaction policy
demands confirmation, or the task's risk level is high, or the lowered
goal text contains a configured destructive-action marker); for every
non-execute intent it returns false. -/
theorem c9_requiresExecutionConfirmation_iff (intent : UserMessageIntent)
    (taskCard : ExecutionTaskCard) (profile : ConversationProfile) :
    requiresExecutionConfirmation intent taskCard profile = true ↔
      (intent.intentType = IntentType.execute ∧
        (profile.interactionPolicy = "confirm_before_execute" ∨
          taskCard.riskLevel = RiskLevel.high ∨
          ∃ keyword ∈ DANGEROUS_KEYWORDS,
            strIncludes (toLowerStr intent.goal) keyword = true)) := by
  unfold requiresExecutionConfirmation
  by_cases hex : intent.intentType = IntentType.execute
  · by_cases hpol : profile.interactionPolicy = "confirm_before_execute"
    · simp [hex, hpol]
    · by_cases hrisk : taskCard.riskLevel = RiskLevel.high
      · simp [hex, hpol, hrisk]
      · simp [hex, hpol, hrisk, List.any_eq_true]
  · simp [hex]

/-- C6: `buildPlan` emits, for execute intents, the step graph
planner → coder → {reviewer, tester} (both in parallel group "verify",
depending on coder) → docs (depending on reviewer and tester) →
synthesizer (depending on docs); for every other intent the graph
planner → synthesizer; and in both cases the emitted step list is
already in topological order (hence acyclic). -/
theorem c6_buildPlan_shape (fresh : Nat → String) (intent : UserMessageIntent)
    (taskCard : ExecutionTaskCard) :
    buildPlan fresh intent taskCard =
      ⟨fresh 0,
        if intent.intentType = IntentType.execute then
          [ ⟨fresh 1, "planner", "拆解目标与约束", [], none⟩
          , ⟨fresh 2, "coder", "执行代码/命令修改", [fresh 1], none⟩
          , ⟨fresh 3, "reviewer", "审查风险与回归", [fresh 2], some "verify"⟩
          , ⟨fresh 4, "tester", "执行验证与检查", [fresh 2], some "verify"⟩
          , ⟨fresh 5, "docs", "生成变更说明", [fresh 3, fresh 4], none⟩
          , ⟨fresh 6, "synthesizer", "汇总执行结果", [fresh 5], none⟩ ]
        else
          [ ⟨fresh 1, "planner", "拆解目标与约束", [], none⟩
          , ⟨fresh 2, "synthesizer", "整理" ++ taskCard.objective ++ "的答复", [fresh 1], none⟩ ]⟩ ∧
    topoSorted (buildPlan fresh intent taskCard).steps = true ∧
    AcyclicSteps (buildPlan fresh intent taskCard).steps := by
  have htopo : topoSorted (buildPlan fresh intent taskCard).steps = true := by
    by_cases hex : intent.intentType = IntentType.execute <;>
      simp [buildPlan, hex, topoSorted, topoSortedFrom]
  refine ⟨?_, htopo, (buildPlan fresh intent taskCard).steps, List.Perm.refl _, htopo⟩
  by_cases hex : intent.intentType = IntentType.execute <;> simp [buildPlan, hex]

/-- C4: while an approval is pending (and within its 10-minute TTL), a
confirm decision carrying exactly the stored token transitions to
execution with the stored intent, task card and bridge request and
clears the pending approval; a confirm decision with a wrong or
missing token reports a mismatch and leaves the approval pending; and
once more than 600000 ms have passed since the approval was created,
any incoming decision clears the approval and reports expiry instead
of executing. -/
theorem c4_confirmation_state_machine (approval : PendingExecutionApproval)
    (decision : ConfirmationDecision) (nowMs : Nat) :
    (decision = ConfirmationDecision.confirm (some approval.confirmationToken) →
      nowMs ≤ approval.createdAtMs + EXECUTION_CONFIRMATION_TTL_MS →
      handlePendingApproval approval decision nowMs =
        (ApprovalOutcome.execute approval.intent approval.taskCard approval.bridgeRequest
          approval.profile (approval.bridgeRequest.runId.getD ""), none)) ∧
    (∀ token, decision = ConfirmationDecision.confirm token →
      token ≠ some approval.confirmationToken →
      nowMs ≤ approval.createdAtMs + EXECUTION_CONFIRMATION_TTL_MS →
      handlePendingApproval approval decision nowMs =
        (ApprovalOutcome.confirmMismatch, some approval)) ∧
    (approval.createdAtMs + EXECUTION_CONFIRMATION_TTL_MS < nowMs →
      handlePendingApproval approval decision nowMs = (ApprovalOutcome.expired, none)) := by
  refine ⟨?_, ?_, ?_⟩
  · intro hdec hwithin
    subst hdec
    simp [handlePendingApproval, Nat.not_lt.mpr hwithin]
  · intro token hdec hne hwithin
    subst hdec
    simp [handlePendingApproval, Nat.not_lt.mpr hwithin, hne]
  · intro hlate
    simp [handlePendingApproval, hlate]

/-- Witness for C4 on a concrete pending approval: a correct-token
confirm at 1000 ms executes the stored request, a wrong-token confirm
at 1000 ms stays pending, and a correct-token confirm at 601000 ms
expires. -/
theorem c4_confirmation_state_machine_witness :
    (handlePendingApproval
        ⟨⟨IntentType.execute, "删除 x", [], [], "p"⟩, ⟨"d", "t", "v", "execute_then_report", []⟩,
          ⟨"o", [], [], RiskLevel.high, ⟨20000, 600000⟩⟩,
          ⟨"C1", none, "U1", none, "text", [], false, "123.456", some "run-1"⟩,
          "600123", 0, none⟩
        (ConfirmationDecision.confirm (some "600123")) 1000 =
      (ApprovalOutcome.execute ⟨IntentType.execute, "删除 x", [], [], "p"⟩
        ⟨"o", [], [], RiskLevel.high, ⟨20000, 600000⟩⟩
        ⟨"C1", none, "U1", none, "text", [], false, "123.456", some "run-1"⟩
        ⟨"d", "t", "v", "execute_then_report", []⟩ "run-1", none)) ∧
    (handlePendingApproval
        ⟨⟨IntentType.execute, "删除 x", [], [], "p"⟩, ⟨"d", "t", "v", "execute_then_report", []⟩,
          ⟨"o", [], [], RiskLevel.high, ⟨20000, 600000⟩⟩,
          ⟨"C1", none, "U1", none, "text", [], false, "123.456", some "run-1"⟩,
          "600123", 0, none⟩
        (ConfirmationDecision.confirm (some "999999")) 1000 =
      (ApprovalOutcome.confirmMismatch,
        some ⟨⟨IntentType.execute, "删除 x", [], [], "p"⟩, ⟨"d", "t", "v", "execute_then_report", []⟩,
          ⟨"o", [], [], RiskLevel.high, ⟨20000, 600000⟩⟩,
          ⟨"C1", none, "U1", none, "text", [], false, "123.456", some "run-1"⟩,
          "600123", 0, none⟩)) ∧
    (handlePendingApproval
        ⟨⟨IntentType.execute, "删除 x", [], [], "p"⟩, ⟨"d", "t", "v", "execute_then_report", []⟩,
          ⟨"o", [], [], RiskLevel.high, ⟨20000, 600000⟩⟩,
          ⟨"C1", none, "U1", none, "text", [], false, "123.456", some "run-1"⟩,
          "600123", 0, none⟩
        (ConfirmationDecision.confirm (some "600123")) 601000 =
      (ApprovalOutcome.expired, none)) := by
  refine ⟨?_, ?_, ?_⟩
  · exact (c4_confirmation_state_machine _ _ _).1 rfl (by decide)
  · exact (c4_confirmation_state_machine _ _ _).2.1 (some "999999") rfl (by decide) (by decide)
  · exact (c4_confirmation_state_machine _ _ _).2.2 (by decide)

/-- C1 counterexample: on an acyclic, nonempty plan with distinct step
ids but a zero token budget, `executePlan` throws `BudgetExceeded`
before dispatching anything — no step of the plan executes at all, so
"every step executes exactly once" does not hold for every acyclic
plan unconditionally. -/
theorem c1_counterexample :
    (executePlan (fun _ => Except.ok "resp") "hi"
        ⟨"r", [⟨"a", "planner", "p", [], none⟩]⟩
        ⟨"o", [], [], RiskLevel.medium, ⟨0, 600000⟩⟩).1 = [] ∧
    (executePlan (fun _ => Except.ok "resp") "hi"
        ⟨"r", [⟨"a", "planner", "p", [], none⟩]⟩
        ⟨"o", [], [], RiskLevel.medium, ⟨0, 600000⟩⟩).2 =
      Except.error (ExecError.budgetBefore "planner") ∧
    AcyclicSteps [⟨"a", "planner", "p", [], none⟩] ∧
    ([⟨"a", "planner", "p", [], none⟩] : List ExecutionPlanStep) ≠ [] := by
  refine ⟨by decide, by decide, ⟨[⟨"a", "planner", "p", [], none⟩],
    List.Perm.refl _, by decide⟩, by decide⟩

/-- C1 (amended): for every plan with nonempty, distinct-id, acyclic
steps, `executePlan` never issues a bridge request for a step before
every id in its `dependsOn` list is in `completed`; and whenever
`executePlan` returns successfully, the issued bridge requests cover
every step of the plan exactly once. (With an insufficient token budget
the run can fail with `BudgetExceeded` before executing every step, so
the exactly-once part is conditional on success.) -/
theorem c1_executePlan_topological_safety (bridge : String → Except String String)
    (baseText : String) (plan : ExecutionPlan) (taskCard : ExecutionTaskCard)
    (hne : plan.steps ≠ []) (hnodup : (plan.steps.map (fun s => s.id)).Nodup)
    (hacyclic : AcyclicSteps plan.steps) :
    (∀ e ∈ (executePlan bridge baseText plan taskCard).1, SafeEvent e) ∧
    (∀ result, (executePlan bridge baseText plan taskCard).2 = Except.ok result →
      ((executePlan bridge baseText plan taskCard).1.map (fun e => e.stepId)).Perm
        (plan.steps.map (fun s => s.id)) ∧
      ∀ s ∈ plan.steps,
        ((executePlan bridge baseText plan taskCard).1.map (fun e => e.stepId)).count
          s.id = 1) := by
  have _ := hacyclic
  have hrem : mapFromSteps plan.steps = plan.steps := mapFromSteps_of_nodup hnodup
  constructor
  · intro e he
    rw [executePlan_fst hne] at he
    exact execLoop_log_safe _ _ _ _ _ _ e he
  · intro result hres
    obtain ⟨rs, ti, tout, helok⟩ := executePlan_ok hne hres
    have hsnd : (execLoop bridge baseText taskCard (mapFromSteps plan.steps).length
        (mapFromSteps plan.steps) [] [] 0 0).2 = Except.ok (rs, ti, tout) := by
      rw [helok]
    have hperm := execLoop_ok_perm (mapFromSteps plan.steps).length
      (mapFromSteps plan.steps) [] [] 0 0 rs ti tout
      (by rw [hrem]; exact hnodup) hsnd
    rw [executePlan_fst hne, hrem]
    rw [hrem] at hperm
    refine ⟨hperm, ?_⟩
    intro s hs
    rw [hperm.count_eq]
    exact List.count_eq_one_of_mem hnodup (List.mem_map_of_mem _ hs)

/-- Witness for C1 on the concrete plan a → b with a large budget: the
run succeeds, every dispatch is safe, and each step is dispatched
exactly once. -/
theorem c1_executePlan_topological_safety_witness :
    (([⟨"a", "planner", "p", [], none⟩,
        ⟨"b", "synthesizer", "s", ["a"], none⟩] : List ExecutionPlanStep).map
          (fun s => s.id)).Nodup ∧
    AcyclicSteps [⟨"a", "planner", "p", [], none⟩, ⟨"b", "synthesizer", "s", ["a"], none⟩] ∧
    (executePlan (fun _ => Except.ok "resp") "hi"
        ⟨"r", [⟨"a", "planner", "p", [], none⟩, ⟨"b", "synthesizer", "s", ["a"], none⟩]⟩
        ⟨"o", [], [], RiskLevel.medium, ⟨100000, 600000⟩⟩).2 =
      Except.ok ⟨"resp", [⟨"a", "planner", "resp", 48, 1⟩, ⟨"b", "synthesizer", "resp", 51, 1⟩],
        99, 2⟩ ∧
    (∀ e ∈ (executePlan (fun _ => Except.ok "resp") "hi"
        ⟨"r", [⟨"a", "planner", "p", [], none⟩, ⟨"b", "synthesizer", "s", ["a"], none⟩]⟩
        ⟨"o", [], [], RiskLevel.medium, ⟨100000, 600000⟩⟩).1, SafeEvent e) ∧
    (∀ s ∈ [⟨"a", "planner", "p", [], none⟩,
        (⟨"b", "synthesizer", "s", ["a"], none⟩ : ExecutionPlanStep)],
      ((executePlan (fun _ => Except.ok "resp") "hi"
          ⟨"r", [⟨"a", "planner", "p", [], none⟩, ⟨"b", "synthesizer", "s", ["a"], none⟩]⟩
          ⟨"o", [], [], RiskLevel.medium, ⟨100000, 600000⟩⟩).1.map
            (fun e => e.stepId)).count s.id = 1) := by
  have h := c1_executePlan_topological_safety (fun _ => Except.ok "resp") "hi"
    ⟨"r", [⟨"a", "planner", "p", [], none⟩, ⟨"b", "synthesizer", "s", ["a"], none⟩]⟩
    ⟨"o", [], [], RiskLevel.medium, ⟨100000, 600000⟩⟩
    (by decide) (by decide)
    ⟨[⟨"a", "planner", "p", [], none⟩, ⟨"b", "synthesizer", "s", ["a"], none⟩],
      List.Perm.refl _, by decide⟩
  have hres : (executePlan (fun _ => Except.ok "resp") "hi"
      ⟨"r", [⟨"a", "planner", "p", [], none⟩, ⟨"b", "synthesizer", "s", ["a"], none⟩]⟩
      ⟨"o", [], [], RiskLevel.medium, ⟨100000, 600000⟩⟩).2 =
      Except.ok ⟨"resp", [⟨"a", "planner", "resp", 48, 1⟩,
        ⟨"b", "synthesizer", "resp", 51, 1⟩], 99, 2⟩ := by decide
  exact ⟨by decide, ⟨[⟨"a", "planner", "p", [], none⟩, ⟨"b", "synthesizer", "s", ["a"], none⟩],
    List.Perm.refl _, by decide⟩, hres, h.1, (h.2 _ hres).2⟩

/-- C2 counterexample: a plan containing the 2-cycle a ↔ b (plus a
dependency-free first step) run under a zero token budget fails with
`BudgetExceeded`, not `PlanStuck`, so an unsatisfiable dependency graph
does not always yield the `PlanStuck` error. -/
theorem c2_counterexample :
    (executePlan (fun _ => Except.ok "resp") "hi"
        ⟨"r", [⟨"s", "planner", "p", [], none⟩, ⟨"a", "coder", "x", ["b"], none⟩,
          ⟨"b", "tester", "y", ["a"], none⟩]⟩
        ⟨"o", [], [], RiskLevel.medium, ⟨0, 600000⟩⟩).2 =
      Except.error (ExecError.budgetBefore "planner") ∧
    (executePlan (fun _ => Except.ok "resp") "hi"
        ⟨"r", [⟨"s", "planner", "p", [], none⟩, ⟨"a", "coder", "x", ["b"], none⟩,
          ⟨"b", "tester", "y", ["a"], none⟩]⟩
        ⟨"o", [], [], RiskLevel.medium, ⟨0, 600000⟩⟩).2 ≠
      Except.error ExecError.planStuck ∧
    (⟨"a", "coder", "x", ["b"], none⟩ : ExecutionPlanStep) ∈
      [⟨"s", "planner", "p", [], none⟩, ⟨"a", "coder", "x", ["b"], none⟩,
        (⟨"b", "tester", "y", ["a"], none⟩ : ExecutionPlanStep)] ∧
    (⟨"b", "tester", "y", ["a"], none⟩ : ExecutionPlanStep) ∈
      [⟨"s", "planner", "p", [], none⟩, ⟨"a", "coder", "x", ["b"], none⟩,
        (⟨"b", "tester", "y", ["a"], none⟩ : ExecutionPlanStep)] := by
  refine ⟨by decide, by decide, by decide, by decide⟩

/-- C2 (amended): for every nonempty plan in which every step declares
at least one dependency — in particular a plan that is exactly a
2-cycle (a depends on b and b depends on a) — the very first wave is
empty, so `executePlan` terminates immediately with the `PlanStuck`
error and issues no bridge request at all, for every task card and
every bridge behaviour. (A plan that also contains runnable steps can
instead fail with `BudgetExceeded` first, as the counterexample
shows.) -/
theorem c2_plan_stuck (bridge : String → Except String String) (baseText : String)
    (plan : ExecutionPlan) (taskCard : ExecutionTaskCard)
    (hne : plan.steps ≠ []) (hdeps : ∀ s ∈ plan.steps, s.dependsOn ≠ []) :
    executePlan bridge baseText plan taskCard = ([], Except.error ExecError.planStuck) := by
  have hremne : mapFromSteps plan.steps ≠ [] := mapFromSteps_ne_nil hne
  have hready : selectReadySteps [] (mapFromSteps plan.steps) = [] := by
    refine List.filter_eq_nil_iff.mpr ?_
    intro s hs
    have hd := hdeps s (mapFromSteps_mem hs)
    intro hall
    cases hdep : s.dependsOn with
    | nil => exact hd hdep
    | cons d rest =>
      rw [hdep, List.all_cons] at hall
      have hnil : (([] : List String).contains d) = false := rfl
      rw [hnil] at hall
      cases hall
  have hremne' : (mapFromSteps plan.steps).isEmpty = false := by
    cases hie : (mapFromSteps plan.steps).isEmpty with
    | false => rfl
    | true => exact absurd (List.isEmpty_iff.mp hie) hremne
  refine executePlan_error hne ?_
  rw [execLoop_stuck _ hremne' (by rw [hready]; rfl)]

/-- Witness for C2 on the concrete 2-cycle plan a ↔ b: every bridge and
every task card yield `PlanStuck` with an empty dispatch log. -/
theorem c2_plan_stuck_witness :
    executePlan (fun _ => Except.ok "resp") "hi"
        ⟨"r", [⟨"a", "coder", "x", ["b"], none⟩, ⟨"b", "tester", "y", ["a"], none⟩]⟩
        ⟨"o", [], [], RiskLevel.medium, ⟨100000, 600000⟩⟩ =
      ([], Except.error ExecError.planStuck) :=
  c2_plan_stuck (fun _ => Except.ok "resp") "hi"
    ⟨"r", [⟨"a", "coder", "x", ["b"], none⟩, ⟨"b", "tester", "y", ["a"], none⟩]⟩
    ⟨"o", [], [], RiskLevel.medium, ⟨100000, 600000⟩⟩
    (by decide) (by decide)

/-- C3: the budget check before the call — a step whose cumulative input
plus estimated prompt cost exceeds the token budget fails with the
`budgetBefore` error without issuing its bridge request; and in
particular, with `tokenBudget = 1` (every rendered prompt estimates to
at least 2 tokens) a plan with a dependency-free step fails on its
first wave with `budgetBefore` before any bridge request at all. -/
theorem c3_budget_enforced_before_call :
    (∀ (bridge : String → Except String String) (baseText : String)
      (taskCard : ExecutionTaskCard) (results : List StepExecutionResult)
      (totalIn totalOut : Nat) (completed : List String) (step : ExecutionPlanStep),
      taskCard.budget.tokenBudget <
        totalIn + estimateTokens (buildStepPrompt baseText step taskCard results) →
      runStep bridge baseText taskCard results totalIn totalOut completed step =
        ([], Except.error (ExecError.budgetBefore step.worker))) ∧
    (∀ (bridge : String → Except String String) (baseText : String)
      (plan : ExecutionPlan) (taskCard : ExecutionTaskCard),
      taskCard.budget.tokenBudget = 1 →
      (∃ s ∈ plan.steps, s.dependsOn = ([] : List String)) →
      (plan.steps.map (fun s => s.id)).Nodup →
      ∃ w, executePlan bridge baseText plan taskCard =
        ([], Except.error (ExecError.budgetBefore w))) := by
  constructor
  · intro bridge baseText taskCard results totalIn totalOut completed step hover
    exact runStep_budget_before hover
  · intro bridge baseText plan taskCard hbudget hfree hnodup
    obtain ⟨s0, hs0, hdep0⟩ := hfree
    have hne : plan.steps ≠ [] := List.ne_nil_of_mem hs0
    have hbudget' : taskCard.budget.tokenBudget ≤ 1 := by rw [hbudget]
    have hrem : mapFromSteps plan.steps = plan.steps := mapFromSteps_of_nodup hnodup
    have hs0ready : s0 ∈ selectReadySteps [] plan.steps :=
      List.mem_filter.mpr ⟨hs0, by rw [hdep0]; rfl⟩
    have hreadyne : selectReadySteps [] plan.steps ≠ [] := List.ne_nil_of_mem hs0ready
    obtain ⟨g0, gs, hgroups⟩ : ∃ g0 gs,
        groupByParallelKey (selectReadySteps [] plan.steps) = g0 :: gs := by
      cases hg : groupByParallelKey (selectReadySteps [] plan.steps) with
      | nil => exact absurd hg (groupByParallelKey_ne_nil hreadyne)
      | cons a l => exact ⟨a, l, rfl⟩
    obtain ⟨t0, ts, hg0⟩ : ∃ t0 ts, g0 = t0 :: ts := by
      have hgne := groupByParallelKey_groups_ne_nil (selectReadySteps [] plan.steps) g0
        (by rw [hgroups]; exact List.mem_cons_self _ _)
      cases g0 with
      | nil => exact absurd rfl hgne
      | cons a l => exact ⟨a, l, rfl⟩
    refine ⟨t0.worker, executePlan_error hne ?_⟩
    have hremne : (mapFromSteps plan.steps).isEmpty = false := by
      rw [hrem]
      cases hie : plan.steps.isEmpty with
      | false => rfl
      | true => exact absurd (List.isEmpty_iff.mp hie) hne
    have hreadyne' : (selectReadySteps [] (mapFromSteps plan.steps)).isEmpty = false := by
      rw [hrem]
      cases hie : (selectReadySteps [] plan.steps).isEmpty with
      | false => rfl
      | true => exact absurd (List.isEmpty_iff.mp hie) hreadyne
    obtain ⟨n, hn⟩ : ∃ n, (mapFromSteps plan.steps).length = n + 1 := by
      rw [hrem]
      cases hsl : plan.steps with
      | nil => exact absurd hsl hne
      | cons a l => exact ⟨l.length, by simp⟩
    rw [hn, execLoop_succ n hremne hreadyne']
    rw [hrem, hgroups, runGroups_cons, hg0, runGroup_budget_one hbudget' (t0 :: ts)]

/-- Witness for C3: a zero budget rejects the very first step before
its bridge call, and a budget of exactly 1 makes a one-step plan fail
with `budgetBefore` and an empty dispatch log. -/
theorem c3_budget_enforced_before_call_witness :
    runStep (fun _ => Except.ok "resp") "hi"
        ⟨"o", [], [], RiskLevel.medium, ⟨0, 600000⟩⟩ [] 0 0 []
        ⟨"a", "planner", "p", [], none⟩ =
      ([], Except.error (ExecError.budgetBefore "planner")) ∧
    (∃ w, executePlan (fun _ => Except.ok "resp") "hi"
        ⟨"r", [⟨"a", "planner", "p", [], none⟩]⟩
        ⟨"o", [], [], RiskLevel.medium, ⟨1, 600000⟩⟩ =
      ([], Except.error (ExecError.budgetBefore w))) :=
  ⟨c3_budget_enforced_before_call.1 (fun _ => Except.ok "resp") "hi"
      ⟨"o", [], [], RiskLevel.medium, ⟨0, 600000⟩⟩ [] 0 0 []
      ⟨"a", "planner", "p", [], none⟩ (by decide),
    c3_budget_enforced_before_call.2 (fun _ => Except.ok "resp") "hi"
      ⟨"r", [⟨"a", "planner", "p", [], none⟩]⟩
      ⟨"o", [], [], RiskLevel.medium, ⟨1, 600000⟩⟩ rfl
      ⟨⟨"a", "planner", "p", [], none⟩, by decide, rfl⟩ (by decide)⟩

/-- C7 counterexample: when the post-call budget check fires, the run
fails — the bridge request for the step was already issued (the
dispatch log has one entry) — but `executePlan` returns no
`PlanExecutionResult` at all, so the tokens already spent on the step
are not recorded in any reported token totals. -/
theorem c7_counterexample :
    (executePlan (fun _ => Except.ok "resp") "hi"
        ⟨"r", [⟨"a", "planner", "p", [], none⟩]⟩
        ⟨"o", [], [], RiskLevel.medium, ⟨48, 600000⟩⟩).2 =
      Except.error (ExecError.budgetAfter "planner") ∧
    exceptIsOk (executePlan (fun _ => Except.ok "resp") "hi"
        ⟨"r", [⟨"a", "planner", "p", [], none⟩]⟩
        ⟨"o", [], [], RiskLevel.medium, ⟨48, 600000⟩⟩).2 = false ∧
    (executePlan (fun _ => Except.ok "resp") "hi"
        ⟨"r", [⟨"a", "planner", "p", [], none⟩]⟩
        ⟨"o", [], [], RiskLevel.medium, ⟨48, 600000⟩⟩).1 =
      [⟨"a", [], []⟩] := by
  refine ⟨by decide, by decide, by decide⟩

/-- C7 (amended): when a step passes the pre-call budget check, its
bridge call returns a response, and the cumulative input (including
this step's prompt) plus cumulative output plus the response's
estimated output tokens exceed the token budget, the step fails with
the `budgetAfter` error after the bridge request was issued (the
dispatch event is recorded); the thrown error carries no token totals,
so the tokens spent on the step are not part of any reported result. -/
theorem c7_budget_exceeded_after_call (bridge : String → Except String String)
    (baseText : String) (taskCard : ExecutionTaskCard)
    (results : List StepExecutionResult) (totalIn totalOut : Nat)
    (completed : List String) (step : ExecutionPlanStep) (text : String)
    (hunder : totalIn + estimateTokens (buildStepPrompt baseText step taskCard results) ≤
      taskCard.budget.tokenBudget)
    (hresp : bridge (buildStepPrompt baseText step taskCard results) = Except.ok text)
    (hover : taskCard.budget.tokenBudget <
      totalIn + estimateTokens (buildStepPrompt baseText step taskCard results) +
        totalOut + estimateTokens text) :
    runStep bridge baseText taskCard results totalIn totalOut completed step =
      ([⟨step.id, step.dependsOn, completed⟩],
        Except.error (ExecError.budgetAfter step.worker)) := by
  simp only [runStep]
  rw [if_neg (Nat.not_lt.mpr hunder), hresp]
  dsimp only
  rw [if_pos hover]

/-- Witness for C7: with a budget of exactly the prompt's estimated
cost, the step's call goes out and the response pushes the run over
budget. -/
theorem c7_budget_exceeded_after_call_witness :
    (0 + estimateTokens (buildStepPrompt "hi" ⟨"a", "planner", "p", [], none⟩
        ⟨"o", [], [], RiskLevel.medium, ⟨48, 600000⟩⟩ []) ≤ 48) ∧
    runStep (fun _ => Except.ok "resp") "hi"
        ⟨"o", [], [], RiskLevel.medium, ⟨48, 600000⟩⟩ [] 0 0 []
        ⟨"a", "planner", "p", [], none⟩ =
      ([⟨"a", [], []⟩], Except.error (ExecError.budgetAfter "planner")) :=
  ⟨by decide,
    c7_budget_exceeded_after_call (fun _ => Except.ok "resp") "hi"
      ⟨"o", [], [], RiskLevel.medium, ⟨48, 600000⟩⟩ [] 0 0 []
      ⟨"a", "planner", "p", [], none⟩ "resp" (by decide) rfl (by decide)⟩

theorem waitPoll_finds {env : Nat → EnvView} {onStatusProvided : Bool}
    {r : PiBridgeQueuedResponse} {t0 : Nat}
    (hresp : ∀ t, (env t).responseFile = if t0 ≤ t then some r else none)
    (habort : ∀ t, t ≤ t0 → (env t).aborted = false) :
    ∀ (fuel t : Nat) (lastSignature : String) (emitted : List PiBridgeStatusRecord),
      t ≤ t0 → t0 < t + fuel →
      (waitPoll env onStatusProvided fuel t lastSignature emitted).1 = Except.ok r := by
  intro fuel
  induction fuel with
  | zero =>
    intro t lastSignature emitted ht hlt
    omega
  | succ fuel ih =>
    intro t lastSignature emitted ht hlt
    simp only [waitPoll]
    rw [habort t ht]
    by_cases heq : t0 ≤ t
    · rw [hresp t, if_pos heq]
      rfl
    · rw [hresp t, if_neg heq]
      exact ih (t + 1) _ _ (by omega) (by omega)

theorem waitPoll_exhausts {env : Nat → EnvView} {onStatusProvided : Bool} (tmax : Nat)
    (hquiet : ∀ t, t < tmax → (env t).responseFile = none ∧ (env t).aborted = false) :
    ∀ (fuel t : Nat) (lastSignature : String) (emitted : List PiBridgeStatusRecord),
      t + fuel ≤ tmax →
      (waitPoll env onStatusProvided fuel t lastSignature emitted).1 =
        Except.error BridgeError.timeout := by
  intro fuel
  induction fuel with
  | zero =>
    intro t lastSignature emitted _
    rfl
  | succ fuel ih =>
    intro t lastSignature emitted hle
    obtain ⟨hr, ha⟩ := hquiet t (by omega)
    simp only [waitPoll]
    rw [ha, hr]
    exact ih (t + 1) _ _ (by omega)

theorem cleanupArtifacts_eq_none (a : ArtifactState) :
    cleanupArtifacts a = ⟨none, none, none⟩ := by
  obtain ⟨req, resp, st⟩ := a
  cases req <;> cases resp <;> cases st <;> rfl

theorem bridgeRequest_result (clientTimeoutMs : Nat) (req : PiBridgeRequestRecord)
    (id createdAtIso : String) (env : Nat → EnvView) (onStatusProvided : Bool) :
    (bridgeRequest clientTimeoutMs req id createdAtIso env onStatusProvided).result =
      (match (waitForResponse env onStatusProvided clientTimeoutMs).1 with
        | Except.ok response =>
          if response.ok = false then
            Except.error (BridgeError.workerReported (response.error.getD "pi bridge request failed"))
          else
            Except.ok ⟨response.text.getD ""⟩
        | Except.error e => Except.error e) := by
  cases hw : waitForResponse env onStatusProvided clientTimeoutMs with
  | mk waited rest =>
    obtain ⟨exitTick, emitted⟩ := rest
    cases waited <;> simp only [bridgeRequest, hw]

/-- The `finally` block runs on every path: after any `request` call the
request, response and status artifacts for its id are gone. -/
theorem bridgeRequest_artifacts (clientTimeoutMs : Nat) (req : PiBridgeRequestRecord)
    (id createdAtIso : String) (env : Nat → EnvView) (onStatusProvided : Bool) :
    (bridgeRequest clientTimeoutMs req id createdAtIso env onStatusProvided).artifacts =
      ⟨none, none, none⟩ := by
  cases hw : waitForResponse env onStatusProvided clientTimeoutMs with
  | mk waited rest =>
    obtain ⟨exitTick, emitted⟩ := rest
    cases waited <;>
      · simp only [bridgeRequest, hw]
        exact cleanupArtifacts_eq_none _

/-- C5: a bridge round trip — if the external worker writes a response
with `ok = true` at some poll tick before the timeout and no abort
fires before it, `request` returns exactly that response's text; and on
every exit path (for every environment: success, worker-reported
error, timeout or abort) the request, response and status artifacts for
the id are deleted, so polling the response artifact again after the
call finds nothing. -/
theorem c5_bridge_round_trip (clientTimeoutMs : Nat) (req : PiBridgeRequestRecord)
    (id createdAtIso : String) (env : Nat → EnvView) (onStatusProvided : Bool)
    (r : PiBridgeQueuedResponse) (t0 : Nat)
    (hresp : ∀ t, (env t).responseFile = if t0 ≤ t then some r else none)
    (habort : ∀ t, t ≤ t0 → (env t).aborted = false)
    (hok : r.ok = true) (ht0 : t0 < numPollTicks clientTimeoutMs) :
    (bridgeRequest clientTimeoutMs req id createdAtIso env onStatusProvided).result =
      Except.ok ⟨r.text.getD ""⟩ ∧
    (∀ env' : Nat → EnvView,
      (bridgeRequest clientTimeoutMs req id createdAtIso env' onStatusProvided).artifacts =
        ⟨none, none, none⟩) ∧
    (∀ env' : Nat → EnvView,
      (bridgeRequest clientTimeoutMs req id createdAtIso env' onStatusProvided).artifacts.response =
        none) := by
  refine ⟨?_, fun env' => bridgeRequest_artifacts _ _ _ _ _ _,
    fun env' => by rw [bridgeRequest_artifacts]⟩
  rw [bridgeRequest_result]
  have hw : (waitForResponse env onStatusProvided clientTimeoutMs).1 = Except.ok r :=
    waitPoll_finds hresp habort (numPollTicks clientTimeoutMs) 0 "" [] (Nat.zero_le _)
      (by omega)
  rw [hw]
  dsimp only
  rw [hok]
  rfl

/-- Witness for C5: a worker response `{ok := true, text := "done"}`
appearing at poll tick 2 of a 600000 ms request is returned as
`ok "done"` and all artifacts are cleaned up. -/
theorem c5_bridge_round_trip_witness :
    (bridgeRequest 600000 ⟨"C1", none, "U1", none, "t", [], false, "1.2", none⟩ "id" "T"
        (fun t => ⟨false, none, if 2 ≤ t then some ⟨"id", true, some "done", none⟩ else none⟩)
        false).result = Except.ok ⟨"done"⟩ ∧
    (bridgeRequest 600000 ⟨"C1", none, "U1", none, "t", [], false, "1.2", none⟩ "id" "T"
        (fun t => ⟨false, none, if 2 ≤ t then some ⟨"id", true, some "done", none⟩ else none⟩)
        false).artifacts = ⟨none, none, none⟩ ∧
    (bridgeRequest 600000 ⟨"C1", none, "U1", none, "t", [], false, "1.2", none⟩ "id" "T"
        (fun t => ⟨false, none, if 2 ≤ t then some ⟨"id", true, some "done", none⟩ else none⟩)
        false).artifacts.response = none := by
  have h := c5_bridge_round_trip 600000 ⟨"C1", none, "U1", none, "t", [], false, "1.2", none⟩
    "id" "T"
    (fun t => ⟨false, none, if 2 ≤ t then some ⟨"id", true, some "done", none⟩ else none⟩)
    false ⟨"id", true, some "done", none⟩ 2
    (fun t => rfl) (fun t _ => rfl) rfl (by decide)
  exact ⟨h.1, h.2.1 _, h.2.2 _⟩

/-- C8: the per-call timeout supplied by the step runner is dropped.
`DEFAULT_REQUEST_TIMEOUT_MS` is 600000 ms and `request` polls for the
client-configured timeout only: with the default client timeout, a
response arriving at 300000 ms elapsed (poll tick 2000) is returned
successfully, although a per-call timeout of `taskCard.budget.timeoutMs
= 180000` ms — which the step runner passes as a fourth argument that
`request`'s signature does not accept — would have timed out 120000 ms
earlier, as the same call against a client configured with 180000 ms
shows. -/
theorem c8_per_call_timeout_dropped :
    DEFAULT_REQUEST_TIMEOUT_MS = 600000 ∧
    (bridgeRequest 600000 ⟨"C1", none, "U1", none, "t", [], false, "1.2", none⟩ "id" "T"
        (fun t => ⟨false, none, if 2000 ≤ t then some ⟨"id", true, some "done", none⟩ else none⟩)
        false).result = Except.ok ⟨"done"⟩ ∧
    (bridgeRequest 180000 ⟨"C1", none, "U1", none, "t", [], false, "1.2", none⟩ "id" "T"
        (fun t => ⟨false, none, if 2000 ≤ t then some ⟨"id", true, some "done", none⟩ else none⟩)
        false).result = Except.error BridgeError.timeout := by
  refine ⟨rfl, ?_, ?_⟩
  · rw [bridgeRequest_result]
    have hw : (waitForResponse
        (fun t => (⟨false, none,
          if 2000 ≤ t then some ⟨"id", true, some "done", none⟩ else none⟩ : EnvView))
        false 600000).1 = Except.ok ⟨"id", true, some "done", none⟩ :=
      waitPoll_finds (fun t => rfl) (fun t _ => rfl) (numPollTicks 600000) 0 "" []
        (Nat.zero_le _) (by decide)
    rw [hw]
    rfl
  · rw [bridgeRequest_result]
    have hw : (waitForResponse
        (fun t => (⟨false, none,
          if 2000 ≤ t then some ⟨"id", true, some "done", none⟩ else none⟩ : EnvView))
        false 180000).1 = Except.error BridgeError.timeout := by
      refine waitPoll_exhausts 2000 ?_ (numPollTicks 180000) 0 "" [] (by decide)
      intro t ht
      exact ⟨if_neg (by omega), rfl⟩
    rw [hw]

end Mom
